import Mathlib

/-!
# go-dns: wire codec and request handler

A shallow embedding of `src/message.go`, `src/engine.go` and `src/texts.go`.

Conventions of the embedding
* A Go `byte`, `uint8`, `uint16`, `uint32` or `int` value is a `Nat`; every
  conversion that can truncate is written with an explicit `%`.
* A Go `[]byte` is the list of its bytes, and its capacity is taken equal to
  its length (as for the listener's `make([]byte, 1024)`), so the slice
  expression `buf[a:b]` panics exactly when `b` exceeds the list's length.
* A Go `string` is the list of its bytes.
* A Go function that can hit a run-time panic returns `Run α`: it returns its
  values (`ret`), panics (`goPanic`), or, for the unbounded loop and recursion
  of `readString`, is cut off by the step budget (`outOfFuel`).
* A Go `error` return is `Option DnsError` (`none` is `nil`).
-/

namespace GoDns

/-! ## texts.go -/

/-- The error texts of `texts.go` that the codec and the engine return. -/
inductive DnsError where
  | MessageTooShort
  | MessageParsingFailed
  | NotValidMessage
  | ValidButNotImplemented
  deriving DecidableEq, Repr

/-- Outcome of running a Go function. -/
inductive Run (α : Type) where
  | ret (a : α)
  | goPanic
  | outOfFuel
  deriving DecidableEq, Repr

/-- Sequencing: a panic or an exhausted budget ends the run. -/
def Run.bind {α β : Type} (x : Run α) (f : α → Run β) : Run β :=
  match x with
  | .ret a => f a
  | .goPanic => .goPanic
  | .outOfFuel => .outOfFuel

instance : Monad Run where
  pure := Run.ret
  bind := Run.bind

/-! ## message.go: data model -/

def DnsMessageOpCodeStandard : Nat := 0
def DnsMessageOpCodeInverse : Nat := 1
def DnsMessageOpCodeStatus : Nat := 2

def DnsMessageResponseCodeOk : Nat := 0
def DnsMessageResponseCodeFormatError : Nat := 1
def DnsMessageResponseCodeServerFailure : Nat := 2

structure DnsMessageHeader where
  TransactionID : Nat := 0
  isResponse : Bool := false
  OpCode : Nat := 0
  AuthoritativeAnswer : Bool := false
  TrunCation : Bool := false
  RecursionDesired : Bool := false
  RecursionAvailable : Bool := false
  Reserved : Nat := 0
  ResponseCode : Nat := 0
  QDCOUNT : Nat := 0
  ANCOUNT : Nat := 0
  NSCOUNT : Nat := 0
  ARCOUNT : Nat := 0
  deriving DecidableEq, Repr

def QType_A : Nat := 1
def QType_TXT : Nat := 16
def QClass_IN : Nat := 1

structure DnsMessageQuestionSectionEntry where
  QName : List Nat := []
  QType : Nat := 0
  QClass : Nat := 0
  deriving DecidableEq, Repr

structure DnsMessageResourceEntry where
  Name : List Nat := []
  /-- The field `Type` of the source (a reserved word here). -/
  RrType : Nat := 0
  Class : Nat := 0
  TTL : Nat := 0
  RdLength : Nat := 0
  RdData : List Nat := []
  deriving DecidableEq, Repr

structure DnsMessage where
  Header : DnsMessageHeader := {}
  Questions : List DnsMessageQuestionSectionEntry := []
  Answers : List DnsMessageResourceEntry := []
  Authority : List DnsMessageResourceEntry := []
  Additional : List DnsMessageResourceEntry := []
  deriving DecidableEq, Repr

/-! ## Library functions used by the source -/

/-- The call `binary.BigEndian.Uint16(buf[off:off+2])`: the slice expression
panics when `off+2` exceeds the capacity. -/
def sliceUint16 (buf : List Nat) (off : Nat) : Run Nat :=
  if off + 2 > buf.length then .goPanic
  else .ret (buf.getD off 0 * 256 + buf.getD (off + 1) 0)

/-- The call `binary.BigEndian.Uint32(buf[off:off+4])`. -/
def sliceUint32 (buf : List Nat) (off : Nat) : Run Nat :=
  if off + 4 > buf.length then .goPanic
  else .ret (buf.getD off 0 * 16777216 + buf.getD (off + 1) 0 * 65536
    + buf.getD (off + 2) 0 * 256 + buf.getD (off + 3) 0)

/-- The slice expression `buf[lo:hi]` (with `lo ≤ hi` at every use). -/
def sliceBytes (buf : List Nat) (lo hi : Nat) : Run (List Nat) :=
  if hi > buf.length then .goPanic
  else .ret ((buf.drop lo).take (hi - lo))

/-- The call `binary.BigEndian.AppendUint16(buf, v)`. -/
def appendUint16 (buf : List Nat) (v : Nat) : List Nat :=
  buf ++ [(v / 256) % 256, v % 256]

/-- The call `binary.BigEndian.AppendUint32(buf, v)`. -/
def appendUint32 (buf : List Nat) (v : Nat) : List Nat :=
  buf ++ [(v / 16777216) % 256, (v / 65536) % 256, (v / 256) % 256, v % 256]

/-- The call `strings.Split(str, ".")`: the pieces between the dots (byte 46);
the empty string gives one empty piece. -/
def stringsSplit : List Nat → List (List Nat)
  | [] => [[]]
  | c :: cs =>
    if c = 46 then [] :: stringsSplit cs
    else
      match stringsSplit cs with
      | [] => [[c]]
      | p :: ps => (c :: p) :: ps

/-- The call `strings.Join(parts, ".")`. -/
def stringsJoin : List (List Nat) → List Nat
  | [] => []
  | [p] => p
  | p :: q :: ps => p ++ 46 :: stringsJoin (q :: ps)

/-! ## message.go: decoding -/

/-- Source: `readUint16`. Returns `(value, offset, err)`. -/
def readUint16 (buf : List Nat) (length bufferOffset : Nat) :
    Run (Nat × Nat × Option DnsError) :=
  if bufferOffset + 2 > length then
    .ret (0, bufferOffset, some .MessageParsingFailed)
  else do
    let result ← sliceUint16 buf bufferOffset
    pure (result, bufferOffset + 2, none)

/-- Source: `readUint32`. Returns `(value, offset, err)`. -/
def readUint32 (buf : List Nat) (length bufferOffset : Nat) :
    Run (Nat × Nat × Option DnsError) :=
  if bufferOffset + 4 > length then
    .ret (0, bufferOffset, some .MessageParsingFailed)
  else do
    let result ← sliceUint32 buf bufferOffset
    pure (result, bufferOffset + 4, none)

/-- Source: the `for` loop of `readString`, with the loop state
`(bufferOffset, parts)` as arguments. Each loop iteration and each recursive
call takes one unit of the step budget. Returns `(name, offset, err)`. -/
def readStringLoop : Nat → List Nat → Nat → Nat → List (List Nat) →
    Run (List Nat × Nat × Option DnsError)
  | 0, _, _, _, _ => .outOfFuel
  | fuel + 1, buf, length, bufferOffset, parts =>
    if bufferOffset > length then
      .ret ([], bufferOffset, some .MessageParsingFailed)
    else
      match buf[bufferOffset]? with
      | none => .goPanic
      | some nameLength =>
        if nameLength = 0xC0 then
          match sliceUint16 buf bufferOffset with
          | .goPanic => .goPanic
          | .outOfFuel => .outOfFuel
          | .ret temp =>
            let bufferOffset := bufferOffset + 2
            let bufferOffsetPtr := ((temp * 4) % 65536) / 4
            match readStringLoop fuel buf length bufferOffsetPtr [] with
            | .goPanic => .goPanic
            | .outOfFuel => .outOfFuel
            | .ret (_, _, some err) => .ret ([], bufferOffset, some err)
            | .ret (part, _, none) =>
              readStringLoop fuel buf length bufferOffset (parts ++ [part])
        else
          let bufferOffset := bufferOffset + 1
          if nameLength ≠ 0 then
            if bufferOffset + nameLength > length then
              .ret ([], bufferOffset, some .MessageParsingFailed)
            else
              match sliceBytes buf bufferOffset (bufferOffset + nameLength) with
              | .goPanic => .goPanic
              | .outOfFuel => .outOfFuel
              | .ret part =>
                readStringLoop fuel buf length (bufferOffset + nameLength) (parts ++ [part])
          else
            .ret (stringsJoin parts, bufferOffset, none)

/-- Source: `readString`: the loop started with no parts. -/
def readString (fuel : Nat) (buf : List Nat) (length bufferOffset : Nat) :
    Run (List Nat × Nat × Option DnsError) :=
  readStringLoop fuel buf length bufferOffset []

/-- Source: the flag unpacking of `ParseMessageFromBuffer` (lines 79-86),
applied to the header that already holds the ID and the counts. -/
def unpackFlags (h : DnsMessageHeader) (flags : Nat) : DnsMessageHeader :=
  { h with
    isResponse := (((flags >>> 15) % 256) &&& 0x01) == 1
    OpCode := ((flags >>> 11) % 256) &&& 0x0F
    AuthoritativeAnswer := (((flags >>> 10) % 256) &&& 0x01) == 1
    TrunCation := (((flags >>> 9) % 256) &&& 0x01) == 1
    RecursionDesired := (((flags >>> 8) % 256) &&& 0x01) == 1
    RecursionAvailable := (((flags >>> 7) % 256) &&& 0x01) == 1
    Reserved := ((flags >>> 4) % 256) &&& 0x07
    ResponseCode := (flags % 256) &&& 0x0F }

/-- Source: the question loop of `ParseMessageFromBuffer` (lines 89-108), with
the number of iterations left as first argument. Returns
`(result, currentBufferOffset, err)`. -/
def parseQuestions (fuel : Nat) (buf : List Nat) (length : Nat) :
    Nat → Nat → DnsMessage → Run (DnsMessage × Nat × Option DnsError)
  | 0, currentBufferOffset, result => .ret (result, currentBufferOffset, none)
  | n + 1, currentBufferOffset, result =>
    match readString fuel buf length currentBufferOffset with
    | .goPanic => .goPanic
    | .outOfFuel => .outOfFuel
    | .ret (_, off, some err) => .ret (result, off, some err)
    | .ret (qname, off, none) =>
      match readUint16 buf length off with
      | .goPanic => .goPanic
      | .outOfFuel => .outOfFuel
      | .ret (_, off, some err) => .ret (result, off, some err)
      | .ret (qtype, off, none) =>
        match readUint16 buf length off with
        | .goPanic => .goPanic
        | .outOfFuel => .outOfFuel
        | .ret (_, off, some err) => .ret (result, off, some err)
        | .ret (qclass, off, none) =>
          parseQuestions fuel buf length n off
            { result with
              Questions := result.Questions ++
                [{ QName := qname, QType := qtype, QClass := qclass }] }

/-- Source: the additional-record loop of `ParseMessageFromBuffer`
(lines 114-150). Returns `(result, err)`. -/
def parseAdditional (fuel : Nat) (buf : List Nat) (length : Nat) :
    Nat → Nat → DnsMessage → Run (DnsMessage × Option DnsError)
  | 0, _, result => .ret (result, none)
  | n + 1, currentBufferOffset, result =>
    match readString fuel buf length currentBufferOffset with
    | .goPanic => .goPanic
    | .outOfFuel => .outOfFuel
    | .ret (_, _, some err) => .ret (result, some err)
    | .ret (name, off, none) =>
      match readUint16 buf length off with
      | .goPanic => .goPanic
      | .outOfFuel => .outOfFuel
      | .ret (_, _, some err) => .ret (result, some err)
      | .ret (type, off, none) =>
        match readUint16 buf length off with
        | .goPanic => .goPanic
        | .outOfFuel => .outOfFuel
        | .ret (_, _, some err) => .ret (result, some err)
        | .ret (cls, off, none) =>
          match readUint32 buf length off with
          | .goPanic => .goPanic
          | .outOfFuel => .outOfFuel
          | .ret (_, _, some err) => .ret (result, some err)
          | .ret (ttl, off, none) =>
            match readUint16 buf length off with
            | .goPanic => .goPanic
            | .outOfFuel => .outOfFuel
            | .ret (_, _, some err) => .ret (result, some err)
            | .ret (rdLength, off, none) =>
              if off + rdLength > length then
                .ret (result, some .MessageParsingFailed)
              else
                match sliceBytes buf off (off + rdLength) with
                | .goPanic => .goPanic
                | .outOfFuel => .outOfFuel
                | .ret rdData =>
                  parseAdditional fuel buf length n (off + rdLength)
                    { result with
                      Additional := result.Additional ++
                        [{ Name := name, RrType := type, Class := cls, TTL := ttl,
                           RdLength := rdLength, RdData := rdData }] }

/-- Source: `ParseMessageFromBuffer`. Returns `(result, err)`; on an error the
message decoded so far is returned with it. -/
def ParseMessageFromBuffer (fuel : Nat) (buf : List Nat) (length : Nat) :
    Run (DnsMessage × Option DnsError) :=
  let result : DnsMessage := {}
  if length < 12 then
    .ret (result, some .MessageTooShort)
  else do
    let transactionID ← sliceUint16 buf 0
    let flags ← sliceUint16 buf 2
    let qdcount ← sliceUint16 buf 4
    let ancount ← sliceUint16 buf 6
    let nscount ← sliceUint16 buf 8
    let arcount ← sliceUint16 buf 10
    let header : DnsMessageHeader :=
      unpackFlags
        { TransactionID := transactionID, QDCOUNT := qdcount, ANCOUNT := ancount,
          NSCOUNT := nscount, ARCOUNT := arcount } flags
    let result : DnsMessage := { result with Header := header }
    match ← parseQuestions fuel buf length qdcount 12 result with
    | (result, _, some err) => pure (result, some err)
    | (result, currentBufferOffset, none) =>
      parseAdditional fuel buf length arcount currentBufferOffset result

/-! ## message.go: encoding -/

/-- Source: the loop of `writeStringToBuffer` over the split parts. -/
def writeParts (buf : List Nat) : List (List Nat) → List Nat
  | [] => buf
  | part :: parts => writeParts (buf ++ [part.length % 256] ++ part) parts

/-- Source: `writeStringToBuffer`. -/
def writeStringToBuffer (buf : List Nat) (str : List Nat) : List Nat :=
  writeParts buf (stringsSplit str) ++ [0]

/-- Source: the flag packing of `WriteMessageToBuffer` (lines 223-248); every
step is a `uint16` operation. -/
def packFlags (h : DnsMessageHeader) : Nat :=
  let flags := 0
  let flags := if h.isResponse then flags ||| (1 <<< 15) else flags
  let flags := flags ||| ((h.OpCode <<< 11) % 65536)
  let flags := if h.AuthoritativeAnswer then flags ||| (1 <<< 10) else flags
  let flags := if h.TrunCation then flags ||| (1 <<< 9) else flags
  let flags := if h.RecursionDesired then flags ||| (1 <<< 8) else flags
  let flags := if h.RecursionAvailable then flags ||| (1 <<< 7) else flags
  let flags := flags ||| ((h.Reserved <<< 4) % 65536)
  let flags := flags ||| h.ResponseCode
  flags

/-- Source: the question loop of `WriteMessageToBuffer` (lines 256-260):
`n` iterations left, `i` the loop index; `Questions[i]` panics out of range. -/
def writeQuestions (questions : List DnsMessageQuestionSectionEntry) :
    Nat → Nat → List Nat → Run (List Nat)
  | 0, _, buf => .ret buf
  | n + 1, i, buf =>
    match questions[i]? with
    | none => .goPanic
    | some q =>
      writeQuestions questions n (i + 1)
        (appendUint16 (appendUint16 (writeStringToBuffer buf q.QName) q.QType) q.QClass)

/-- Source: the answer loop of `WriteMessageToBuffer` (lines 262-269). -/
def writeAnswers (answers : List DnsMessageResourceEntry) :
    Nat → Nat → List Nat → Run (List Nat)
  | 0, _, buf => .ret buf
  | n + 1, i, buf =>
    match answers[i]? with
    | none => .goPanic
    | some a =>
      writeAnswers answers n (i + 1)
        (appendUint16 (appendUint32 (appendUint16 (appendUint16
          (writeStringToBuffer buf a.Name) a.RrType) a.Class) a.TTL) a.RdLength ++ a.RdData)

/-- Source: `WriteMessageToBuffer`. Returns `(buf, len(buf), nil)`. -/
def WriteMessageToBuffer (message : DnsMessage) :
    Run (List Nat × Nat × Option DnsError) := do
  let buf : List Nat := []
  let buf := appendUint16 buf message.Header.TransactionID
  let buf := appendUint16 buf (packFlags message.Header)
  let buf := appendUint16 buf message.Header.QDCOUNT
  let buf := appendUint16 buf message.Header.ANCOUNT
  let buf := appendUint16 buf message.Header.NSCOUNT
  let buf := appendUint16 buf message.Header.ARCOUNT
  let buf ← writeQuestions message.Questions message.Header.QDCOUNT 0 buf
  let buf ← writeAnswers message.Answers message.Header.ANCOUNT 0 buf
  pure (buf, buf.length, none)

/-! ## engine.go -/

/-- Source: the `for` loop of `validateMessage` (lines 92-100); it looks at
`Questions[0]` in every iteration. `none` inside `ret` is the `nil` error. -/
def validateQuestions (message : DnsMessage) : Nat → Run (Option DnsError)
  | 0 => .ret none
  | n + 1 =>
    match message.Questions[0]? with
    | none => .goPanic
    | some q =>
      if q.QClass ≠ QClass_IN then .ret (some .ValidButNotImplemented)
      else if q.QType ≠ QType_A ∧ q.QType ≠ QType_TXT then
        .ret (some .ValidButNotImplemented)
      else validateQuestions message n

/-- Source: `validateMessage`. -/
def validateMessage (message : DnsMessage) : Run (Option DnsError) :=
  if message.Header.isResponse then .ret (some .NotValidMessage)
  else if message.Header.OpCode = DnsMessageOpCodeStandard then
    if message.Header.QDCOUNT = 0 ∨ message.Header.QDCOUNT ≠ message.Questions.length then
      .ret (some .NotValidMessage)
    else if message.Header.QDCOUNT ≠ 1 then
      .ret (some .ValidButNotImplemented)
    else
      validateQuestions message message.Header.QDCOUNT
  else if message.Header.OpCode = DnsMessageOpCodeInverse then .ret none
  else if message.Header.OpCode = DnsMessageOpCodeStatus then
    .ret (some .ValidButNotImplemented)
  else .ret (some .NotValidMessage)

/-- The bytes of the string "google.com". -/
def googleCom : List Nat := [103, 111, 111, 103, 108, 101, 46, 99, 111, 109]

/-- The bytes of the string "www.google.com". -/
def wwwGoogleCom : List Nat := [119, 119, 119, 46] ++ googleCom

/-- The bytes of the string "it_works". -/
def itWorks : List Nat := [105, 116, 95, 119, 111, 114, 107, 115]

/-- Source: `fetchTxtResourceByName`: the map lookup `txtResources[name]`. -/
def fetchTxtResourceByName (name : List Nat) : List Nat × Bool × Option DnsError :=
  if name = googleCom then (itWorks, true, none) else ([], false, none)

/-- Source: `fetchAResourceByName`: the map lookup `aResources[name]`. -/
def fetchAResourceByName (name : List Nat) : Nat × Bool × Option DnsError :=
  if name = googleCom then (3639550997, true, none)
  else if name = wwwGoogleCom then (3639550997, true, none)
  else (0, false, none)

/-- Source: the second half of `prepareResourceEntryForEntry` (lines 154-164):
the `A` branch and the final return, run on the record built so far. -/
def prepareResourceEntryA (question : DnsMessageQuestionSectionEntry)
    (result : DnsMessageResourceEntry) :
    DnsMessageResourceEntry × Bool × Option DnsError :=
  if question.QType = QType_A then
    match fetchAResourceByName result.Name with
    | (resource, ok, err) =>
      if !ok || err.isSome then (result, false, err)
      else
        ({ result with
           RdLength := 4 % 65536
           RdData := appendUint32 result.RdData (resource % 4294967296) }, true, none)
  else (result, true, none)

/-- Source: `prepareResourceEntryForEntry`. Returns `(record, ok, err)`. -/
def prepareResourceEntryForEntry (question : DnsMessageQuestionSectionEntry) :
    DnsMessageResourceEntry × Bool × Option DnsError :=
  let result : DnsMessageResourceEntry :=
    { Name := question.QName, RrType := question.QType, Class := question.QClass, TTL := 0 }
  if question.QType = QType_TXT then
    match fetchTxtResourceByName result.Name with
    | (resource, ok, err) =>
      if !ok || err.isSome then (result, false, err)
      else
        prepareResourceEntryA question
          { result with
            RdLength := (resource.length + 1) % 65536
            RdData := result.RdData ++ [resource.length % 256] ++ resource }
  else prepareResourceEntryA question result

/-- Source: `DnsEngine.HandleMessage`. Returns `(bytes, length, err)`. -/
def HandleMessage (fuel : Nat) (buf : List Nat) (length : Nat) :
    Run (List Nat × Nat × Option DnsError) :=
  match ParseMessageFromBuffer fuel buf length with
  | .goPanic => .goPanic
  | .outOfFuel => .outOfFuel
  | .ret (message, err) =>
    let responseMessage : DnsMessage :=
      { Header :=
          { TransactionID := message.Header.TransactionID
            isResponse := true
            OpCode := DnsMessageOpCodeStandard
            AuthoritativeAnswer := false
            TrunCation := false
            RecursionDesired := false
            RecursionAvailable := false
            ResponseCode := DnsMessageResponseCodeOk
            Reserved := 0
            QDCOUNT := 1
            ANCOUNT := 0
            NSCOUNT := 0
            ARCOUNT := 0 }
        Questions := message.Questions
        Answers := []
        Authority := []
        Additional := [] }
    if err.isSome then
      WriteMessageToBuffer
        { responseMessage with
          Header := { responseMessage.Header with
                      ResponseCode := DnsMessageResponseCodeFormatError } }
    else
      match validateMessage message with
      | .goPanic => .goPanic
      | .outOfFuel => .outOfFuel
      | .ret (some _) =>
        WriteMessageToBuffer
          { responseMessage with
            Header := { responseMessage.Header with
                        ResponseCode := DnsMessageResponseCodeFormatError } }
      | .ret none =>
        match message.Questions[0]? with
        | none => .goPanic
        | some question =>
          match prepareResourceEntryForEntry question with
          | (resourceEntry, ok, err) =>
            if !ok || err.isSome then
              WriteMessageToBuffer
                { responseMessage with
                  Header := { responseMessage.Header with
                              ResponseCode := DnsMessageResponseCodeServerFailure } }
            else
              WriteMessageToBuffer
                { responseMessage with
                  Header := { responseMessage.Header with ANCOUNT := 1 }
                  Answers := responseMessage.Answers ++ [resourceEntry] }

/-! ## Specification-side definitions and concrete inputs -/

/-- The decision table of the specification (section 4.2, Validate), written
from its words: `none` is "ok". -/
def validateTable (m : DnsMessage) : Option DnsError :=
  if m.Header.isResponse then some .NotValidMessage
  else
    match m.Header.OpCode with
    | 0 =>
      if m.Header.QDCOUNT = 0 ∨ m.Header.QDCOUNT ≠ m.Questions.length then
        some .NotValidMessage
      else if m.Header.QDCOUNT ≠ 1 then some .ValidButNotImplemented
      else if ∃ q ∈ m.Questions, q.QClass ≠ 1 ∨ (q.QType ≠ 1 ∧ q.QType ≠ 16) then
        some .ValidButNotImplemented
      else none
    | 1 => none
    | 2 => some .ValidButNotImplemented
    | _ => some .NotValidMessage

/-- A 12-byte header with every field zero except the question count. -/
def headerBytes (qdcount : Nat) : List Nat := [0, 0, 0, 0, 0, qdcount, 0, 0, 0, 0, 0, 0]

/-- A header announcing one question, followed by a pointer to offset 12 at
offset 12. -/
def selfPointerBuffer : List Nat := [0, 0, 0, 0, 0, 1, 0, 0, 0, 0, 0, 0, 0xC0, 0x0C]

/-- A header, the name "a" at offset 12, a pointer to offset 12 at offset 15,
then the label "b" and a terminator. -/
def pointerThenLabelBuffer : List Nat :=
  [0, 0, 0, 0, 0, 1, 0, 0, 0, 0, 0, 0, 1, 97, 0, 0xC0, 0x0C, 1, 98, 0]

/-- A header, the name "a" at offset 12, and a pointer to offset 12 in the last
two bytes. -/
def pointerAtEndBuffer : List Nat :=
  [0, 0, 0, 0, 0, 1, 0, 0, 0, 0, 0, 0, 1, 97, 0, 0xC0, 0x0C]

/-- A sample header. -/
def sampleHeader : DnsMessageHeader := { OpCode := 2, RecursionDesired := true, ResponseCode := 3 }

/-- The response header written by `HandleMessage`: the query's ID, the flag
word with only the response bit and the response code, and the four counts. -/
def responseHeaderBytes (transactionID rcode ancount : Nat) : List Nat :=
  [transactionID / 256 % 256, transactionID % 256, 128, rcode, 0, 1, 0, ancount, 0, 0, 0, 0]

/-- The question (google.com, A, IN). -/
def googleQuestion : DnsMessageQuestionSectionEntry :=
  { QName := googleCom, QType := 1, QClass := 1 }

/-- The wire form of the name "google.com". -/
def googleComWire : List Nat := [6, 103, 111, 111, 103, 108, 101, 3, 99, 111, 109, 0]

/-- A query (ID 0x1234, recursion desired) for (google.com, A, IN). -/
def googleQuery : List Nat :=
  [0x12, 0x34, 0x01, 0x00, 0, 1, 0, 0, 0, 0, 0, 0] ++ googleComWire ++ [0, 1, 0, 1]

/-- The bytes of the string "example.com". -/
def exampleCom : List Nat := [101, 120, 97, 109, 112, 108, 101, 46, 99, 111, 109]

/-- A query (ID 0x1234) for (example.com, A, IN). -/
def exampleQuery : List Nat :=
  [0x12, 0x34, 0, 0, 0, 1, 0, 0, 0, 0, 0, 0,
   7, 101, 120, 97, 109, 112, 108, 101, 3, 99, 111, 109, 0, 0, 1, 0, 1]

/-- Names of the wire format: dot-joined non-empty labels of at most 63 bytes. -/
def validName (name : List Nat) : Prop :=
  ∀ p ∈ stringsSplit name, p ≠ [] ∧ p.length ≤ 63

instance (name : List Nat) : Decidable (validName name) := by
  unfold validName
  infer_instance

/-- The record (google.com, A, IN, TTL 0, 216.239.36.21). -/
def googleARecord : DnsMessageResourceEntry :=
  { Name := googleCom, RrType := 1, Class := 1, TTL := 0, RdLength := 4,
    RdData := [216, 239, 36, 21] }

/-- A message with one question and no answer. -/
def oneQuestionMessage : DnsMessage :=
  { Header := { TransactionID := 0x1234, RecursionDesired := true, QDCOUNT := 1 },
    Questions := [googleQuestion] }

/-- A message with one question and one answer. -/
def oneAnswerMessage : DnsMessage :=
  { Header := { TransactionID := 0x1234, isResponse := true, QDCOUNT := 1, ANCOUNT := 1 },
    Questions := [googleQuestion], Answers := [googleARecord] }

/-- The bytes `WriteMessageToBuffer` gives for `oneAnswerMessage`. -/
def oneAnswerBytes : List Nat :=
  [0x12, 0x34, 128, 0, 0, 1, 0, 1, 0, 0, 0, 0,
   6, 103, 111, 111, 103, 108, 101, 3, 99, 111, 109, 0, 0, 1, 0, 1,
   6, 103, 111, 111, 103, 108, 101, 3, 99, 111, 109, 0, 0, 1, 0, 1, 0, 0, 0, 0, 0, 4,
   216, 239, 36, 21]

/-- A message with one question, no answer and one additional record. -/
def oneAdditionalMessage : DnsMessage :=
  { Header := { TransactionID := 0x1234, QDCOUNT := 1, ARCOUNT := 1 },
    Questions := [googleQuestion], Additional := [googleARecord] }

/-- The bytes `WriteMessageToBuffer` gives for `oneAdditionalMessage`. -/
def oneAdditionalBytes : List Nat :=
  [0x12, 0x34, 0, 0, 0, 1, 0, 0, 0, 0, 0, 1,
   6, 103, 111, 111, 103, 108, 101, 3, 99, 111, 109, 0, 0, 1, 0, 1]

/-- The wire form of a question written by `WriteMessageToBuffer`: the name,
then type and class as big-endian 16-bit values. -/
def questionWire (q : DnsMessageQuestionSectionEntry) : List Nat :=
  writeStringToBuffer [] q.QName
    ++ [q.QType / 256 % 256, q.QType % 256, q.QClass / 256 % 256, q.QClass % 256]

/-- The response message that `HandleMessage` hands to `WriteMessageToBuffer`:
the fixed header of engine.go:22-42 with the response code and answer count of
the outcome, the decoded questions and the answers. -/
def responseFor (transactionID rcode ancount : Nat)
    (questions : List DnsMessageQuestionSectionEntry)
    (answers : List DnsMessageResourceEntry) : DnsMessage :=
  { Header :=
      { TransactionID := transactionID, isResponse := true, OpCode := 0,
        ResponseCode := rcode, QDCOUNT := 1, ANCOUNT := ancount }
    Questions := questions
    Answers := answers }

/-- The bytes of the string "example.com" in wire form. -/
def exampleComWire : List Nat := [7, 101, 120, 97, 109, 112, 108, 101, 3, 99, 111, 109, 0]

/-- A query (ID 0x1234) with two questions: (google.com, A, IN) and
(example.com, A, IN). -/
def twoQuestionQuery : List Nat :=
  [0x12, 0x34, 0, 0, 0, 2, 0, 0, 0, 0, 0, 0] ++ googleComWire ++ [0, 1, 0, 1]
    ++ exampleComWire ++ [0, 1, 0, 1]

/-- The message decoded from `twoQuestionQuery`. -/
def twoQuestionMessage : DnsMessage :=
  { Header := { TransactionID := 0x1234, QDCOUNT := 2 },
    Questions := [googleQuestion, { QName := exampleCom, QType := 1, QClass := 1 }] }

/-- A 12-byte message (ID 0x1234) with the response flag set and no question. -/
def responseFlagNoQuestion : List Nat := [0x12, 0x34, 0x80, 0, 0, 0, 0, 0, 0, 0, 0, 0]

/-- A query (ID 0x1234) with the response flag set for (google.com, A, IN). -/
def responseFlagQuery : List Nat :=
  [0x12, 0x34, 0x80, 0, 0, 1, 0, 0, 0, 0, 0, 0] ++ googleComWire ++ [0, 1, 0, 1]

/-- A header announcing one question, followed by a label of 5 bytes that is
cut off after its length byte. -/
def truncatedLabelBuffer : List Nat := [0x12, 0x34, 0, 0, 0, 1, 0, 0, 0, 0, 0, 0, 5]

/-- A header announcing two questions, followed by (google.com, A, IN) only. -/
def secondQuestionMissing : List Nat :=
  [0x12, 0x34, 0, 0, 0, 2, 0, 0, 0, 0, 0, 0] ++ googleComWire ++ [0, 1, 0, 1, 0]

/-- A query (ID 0x1234) for (google.com, A, IN) with one additional record:
root name, type 41, class 4096, TTL 0, and two bytes of data. -/
def queryWithAdditional : List Nat :=
  [0x12, 0x34, 0x01, 0x00, 0, 1, 0, 0, 0, 0, 0, 1] ++ googleComWire ++ [0, 1, 0, 1]
    ++ [0, 0, 41, 16, 0, 0, 0, 0, 0, 0, 2, 7, 9]

/-- The message decoded from `queryWithAdditional`. -/
def messageWithAdditional : DnsMessage :=
  { Header := { TransactionID := 0x1234, RecursionDesired := true, QDCOUNT := 1, ARCOUNT := 1 },
    Questions := [googleQuestion],
    Additional := [{ Name := [], RrType := 41, Class := 4096, TTL := 0, RdLength := 2,
                     RdData := [7, 9] }] }

/-- A query (ID 0x1234, opcode INVERSE) for (google.com, A, IN). -/
def inverseGoogleQuery : List Nat :=
  [0x12, 0x34, 0x08, 0x00, 0, 1, 0, 0, 0, 0, 0, 0] ++ googleComWire ++ [0, 1, 0, 1]

/-- A query (ID 0x1234, opcode INVERSE) for (google.com, type 28, class 3). -/
def inverseUnsupportedQuery : List Nat :=
  [0x12, 0x34, 0x08, 0x00, 0, 1, 0, 0, 0, 0, 0, 0] ++ googleComWire ++ [0, 28, 0, 3]

/-- A 12-byte query (ID 0x1234, opcode INVERSE) with no question. -/
def inverseNoQuestion : List Nat := [0x12, 0x34, 0x08, 0x00, 0, 0, 0, 0, 0, 0, 0, 0]

/-- A query with two questions, ("a", A, IN) written in full at offset 12 and
a second one whose name is the pointer `0xC0 0x0C` at offset 19, followed by
type A and class IN. -/
def compressedQuery : List Nat :=
  [0x12, 0x34, 0, 0, 0, 2, 0, 0, 0, 0, 0, 0, 1, 97, 0, 0, 1, 0, 1, 0xC0, 0x0C, 0, 1, 0, 1]

/-- The labels of a name in wire form, without the terminating zero: each
label as its length byte followed by its bytes. -/
def labelsWire : List (List Nat) → List Nat
  | [] => []
  | l :: ls => l.length :: l ++ labelsWire ls

/-- A query (ID 0x1234) for (example.com, A, IN) with one additional record
whose owner name is the pointer `0xC0 0x0C` to the question name: type A,
class IN, TTL 0 and the four data bytes 1, 2, 3, 4. -/
def missQueryPointerAdditional : List Nat :=
  [0x12, 0x34, 0, 0, 0, 1, 0, 0, 0, 0, 0, 1] ++ exampleComWire ++ [0, 1, 0, 1]
    ++ [0xC0, 0x0C, 0, 1, 0, 1, 0, 0, 0, 0, 0, 4, 1, 2, 3, 4]

/-- The same query with the owner name of the additional record written in
full. -/
def missQueryPlainAdditional : List Nat :=
  [0x12, 0x34, 0, 0, 0, 1, 0, 0, 0, 0, 0, 1] ++ exampleComWire ++ [0, 1, 0, 1]
    ++ exampleComWire ++ [0, 1, 0, 1, 0, 0, 0, 0, 0, 4, 1, 2, 3, 4]

/-- The question (example.com, A, IN). -/
def exampleQuestion : DnsMessageQuestionSectionEntry :=
  { QName := exampleCom, QType := 1, QClass := 1 }

@[simp] theorem Run.ret_bind {α β : Type} (a : α) (f : α → Run β) :
    (Run.ret a >>= f) = f a := rfl

@[simp] theorem Run.goPanic_bind {α β : Type} (f : α → Run β) :
    ((Run.goPanic : Run α) >>= f) = Run.goPanic := rfl

@[simp] theorem Run.outOfFuel_bind {α β : Type} (f : α → Run β) :
    ((Run.outOfFuel : Run α) >>= f) = Run.outOfFuel := rfl

@[simp] theorem Run.pure_eq {α : Type} (a : α) : (pure a : Run α) = Run.ret a := rfl

theorem Run.bind_eq_ret {α β : Type} {x : Run α} {f : α → Run β} {v : β}
    (h : (x >>= f) = .ret v) : ∃ a, x = .ret a ∧ f a = .ret v := by
  cases x with
  | ret a => exact ⟨a, rfl, h⟩
  | goPanic => cases h
  | outOfFuel => cases h

/-- More budget never changes a result that was reached. -/
theorem readStringLoop_mono (buf : List Nat) (length : Nat) :
    ∀ (fuel k off : Nat) (parts : List (List Nat)) (r : Run (List Nat × Nat × Option DnsError)),
      readStringLoop fuel buf length off parts = r → r ≠ .outOfFuel →
      readStringLoop (fuel + k) buf length off parts = r := by
  intro fuel
  induction fuel with
  | zero =>
    intro k off parts r h hr
    simp [readStringLoop] at h
    exact absurd h.symm hr
  | succ f ih =>
    intro k off parts r h hr
    rw [show f + 1 + k = (f + k) + 1 by omega]
    rw [readStringLoop] at h ⊢
    split
    · rename_i hgt; simpa [hgt] using h
    · rename_i hgt
      simp only [hgt, if_false] at h
      cases hb : buf[off]? with
      | none => simpa [hb] using h
      | some nameLength =>
        simp only [hb] at h ⊢
        by_cases hc : nameLength = 0xC0
        · simp only [hc, if_true] at h ⊢
          cases hs : sliceUint16 buf off with
          | goPanic => simpa [hs] using h
          | outOfFuel => simp [hs] at h; exact absurd h.symm hr
          | ret temp =>
            simp only [hs] at h ⊢
            cases hrec : readStringLoop f buf length (temp * 4 % 65536 / 4) [] with
            | goPanic => rw [hrec] at h; rw [ih k _ _ _ hrec (by simp)]; exact h
            | outOfFuel => rw [hrec] at h; exact absurd h.symm hr
            | ret v =>
              rw [hrec] at h; rw [ih k _ _ _ hrec (by simp)]
              obtain ⟨part, o, e⟩ := v
              cases e with
              | some err => exact h
              | none => exact ih k _ _ _ h hr
        · simp only [hc, if_false] at h ⊢
          by_cases hz : nameLength ≠ 0
          · rw [if_pos hz] at h ⊢
            split
            · rename_i hlen; simpa [hlen] using h
            · rename_i hlen
              simp only [hlen, if_false] at h
              cases hs : sliceBytes buf (off + 1) (off + 1 + nameLength) with
              | goPanic => simpa [hs] using h
              | outOfFuel => simp [hs] at h; exact absurd h.symm hr
              | ret part =>
                simp only [hs] at h ⊢
                exact ih k _ _ _ h hr
          · rw [if_neg hz] at h ⊢; exact h

/-- A bitwise or of a multiple of `2 ^ i` with a number below `2 ^ i` is their
sum. -/
theorem or_eq_add (i a b : Nat) (ha : a % 2 ^ i = 0) (hb : b < 2 ^ i) : a ||| b = a + b := by
  have h := Nat.mul_add_lt_is_or hb (a / 2 ^ i)
  have h2 : 2 ^ i * (a / 2 ^ i) = a := by
    have := Nat.div_add_mod a (2 ^ i)
    omega
  rw [h2] at h
  exact h.symm

theorem and_15 (x : Nat) : x &&& 15 = x % 16 := Nat.and_pow_two_sub_one_eq_mod x 4

theorem and_7 (x : Nat) : x &&& 7 = x % 8 := Nat.and_pow_two_sub_one_eq_mod x 3

theorem and_1 (x : Nat) : x &&& 1 = x % 2 := Nat.and_pow_two_sub_one_eq_mod x 1

/-- The or-chain of `packFlags` on disjoint bit fields is a sum. -/
theorem or_chain (r op a t d v res rc : Nat) (hr : r = 0 ∨ r = 32768) (hop : op < 16)
    (ha : a = 0 ∨ a = 1024) (ht : t = 0 ∨ t = 512) (hd : d = 0 ∨ d = 256)
    (hv : v = 0 ∨ v = 128) (hres : res < 8) (hrc : rc < 16) :
    (((((((0 ||| r) ||| (op <<< 11) % 65536) ||| a) ||| t) ||| d) ||| v)
      ||| (res <<< 4) % 65536) ||| rc
      = r + op * 2048 + a + t + d + v + res * 16 + rc := by
  rw [Nat.zero_or, Nat.shiftLeft_eq, Nat.shiftLeft_eq]
  rw [or_eq_add 15 r (op * 2 ^ 11 % 65536) (by omega) (by omega)]
  rw [or_eq_add 11 (r + op * 2 ^ 11 % 65536) a (by omega) (by omega)]
  rw [or_eq_add 10 (r + op * 2 ^ 11 % 65536 + a) t (by omega) (by omega)]
  rw [or_eq_add 9 (r + op * 2 ^ 11 % 65536 + a + t) d (by omega) (by omega)]
  rw [or_eq_add 8 (r + op * 2 ^ 11 % 65536 + a + t + d) v (by omega) (by omega)]
  rw [or_eq_add 7 (r + op * 2 ^ 11 % 65536 + a + t + d + v) (res * 2 ^ 4 % 65536)
    (by omega) (by omega)]
  rw [or_eq_add 4 _ rc (by omega) (by omega)]
  omega
/-- The eight flag sub-fields read by `ParseMessageFromBuffer`, as quotients
and remainders. -/
theorem unpackFlags_fields (base : DnsMessageHeader) (w : Nat) :
    (unpackFlags base w).isResponse = (w / 32768 % 256 % 2 == 1) ∧
    (unpackFlags base w).OpCode = w / 2048 % 256 % 16 ∧
    (unpackFlags base w).AuthoritativeAnswer = (w / 1024 % 256 % 2 == 1) ∧
    (unpackFlags base w).TrunCation = (w / 512 % 256 % 2 == 1) ∧
    (unpackFlags base w).RecursionDesired = (w / 256 % 256 % 2 == 1) ∧
    (unpackFlags base w).RecursionAvailable = (w / 128 % 256 % 2 == 1) ∧
    (unpackFlags base w).Reserved = w / 16 % 256 % 8 ∧
    (unpackFlags base w).ResponseCode = w % 256 % 16 := by
  refine ⟨?_, ?_, ?_, ?_, ?_, ?_, ?_, ?_⟩
  · show ((((w >>> 15) % 256) &&& 0x01) == 1) = _
    rw [and_1, Nat.shiftRight_eq_div_pow]
  · show ((w >>> 11) % 256) &&& 0x0F = _
    rw [and_15, Nat.shiftRight_eq_div_pow]
  · show ((((w >>> 10) % 256) &&& 0x01) == 1) = _
    rw [and_1, Nat.shiftRight_eq_div_pow]
  · show ((((w >>> 9) % 256) &&& 0x01) == 1) = _
    rw [and_1, Nat.shiftRight_eq_div_pow]
  · show ((((w >>> 8) % 256) &&& 0x01) == 1) = _
    rw [and_1, Nat.shiftRight_eq_div_pow]
  · show ((((w >>> 7) % 256) &&& 0x01) == 1) = _
    rw [and_1, Nat.shiftRight_eq_div_pow]
  · show ((w >>> 4) % 256) &&& 0x07 = _
    rw [and_7, Nat.shiftRight_eq_div_pow]
  · show (w % 256) &&& 0x0F = _
    rw [and_15]

/-- The flag word written by `WriteMessageToBuffer`, as a sum. -/
theorem packFlags_eq_sum (h : DnsMessageHeader) (hop : h.OpCode < 16) (hres : h.Reserved < 8)
    (hrc : h.ResponseCode < 16) :
    packFlags h =
      (if h.isResponse then 32768 else 0) + h.OpCode * 2048
        + (if h.AuthoritativeAnswer then 1024 else 0) + (if h.TrunCation then 512 else 0)
        + (if h.RecursionDesired then 256 else 0) + (if h.RecursionAvailable then 128 else 0)
        + h.Reserved * 16 + h.ResponseCode := by
  have key := or_chain (if h.isResponse then 32768 else 0) h.OpCode
    (if h.AuthoritativeAnswer then 1024 else 0) (if h.TrunCation then 512 else 0)
    (if h.RecursionDesired then 256 else 0) (if h.RecursionAvailable then 128 else 0)
    h.Reserved h.ResponseCode (by split <;> simp) hop (by split <;> simp) (by split <;> simp)
    (by split <;> simp) (by split <;> simp) hres hrc
  rw [← key]
  unfold packFlags
  cases h.isResponse <;> cases h.AuthoritativeAnswer <;> cases h.TrunCation <;>
    cases h.RecursionDesired <;> cases h.RecursionAvailable <;> simp

theorem ite_mod_two (x c : Nat) : (if (x % 2 == 1) = true then c else 0) = c * (x % 2) := by
  rcases Nat.mod_two_eq_zero_or_one x with h | h <;> simp [h]

/-- Reading the fields back out of the sum. -/
theorem sum_fields (r op a t d v res rc : Nat) (hr : r = 0 ∨ r = 32768) (hop : op < 16)
    (ha : a = 0 ∨ a = 1024) (ht : t = 0 ∨ t = 512) (hd : d = 0 ∨ d = 256)
    (hv : v = 0 ∨ v = 128) (hres : res < 8) (hrc : rc < 16) :
    (r + op * 2048 + a + t + d + v + res * 16 + rc) / 32768 % 256 % 2 = r / 32768 ∧
    (r + op * 2048 + a + t + d + v + res * 16 + rc) / 2048 % 256 % 16 = op ∧
    (r + op * 2048 + a + t + d + v + res * 16 + rc) / 1024 % 256 % 2 = a / 1024 ∧
    (r + op * 2048 + a + t + d + v + res * 16 + rc) / 512 % 256 % 2 = t / 512 ∧
    (r + op * 2048 + a + t + d + v + res * 16 + rc) / 256 % 256 % 2 = d / 256 ∧
    (r + op * 2048 + a + t + d + v + res * 16 + rc) / 128 % 256 % 2 = v / 128 ∧
    (r + op * 2048 + a + t + d + v + res * 16 + rc) / 16 % 256 % 8 = res ∧
    (r + op * 2048 + a + t + d + v + res * 16 + rc) % 256 % 16 = rc := by
  refine ⟨by omega, by omega, by omega, by omega, by omega, by omega, by omega, by omega⟩

theorem writeParts_append (parts : List (List Nat)) :
    ∀ buf : List Nat, writeParts buf parts = buf ++ writeParts [] parts := by
  induction parts with
  | nil => intro buf; simp [writeParts]
  | cons p ps ih =>
    intro buf
    rw [writeParts, ih, writeParts, ih ([] ++ [p.length % 256] ++ p)]
    simp

theorem writeStringToBuffer_append (buf str : List Nat) :
    writeStringToBuffer buf str = buf ++ writeStringToBuffer [] str := by
  unfold writeStringToBuffer
  rw [writeParts_append]
  simp

theorem getElem?_at_length (pre : List Nat) (x : Nat) (rest : List Nat) :
    (pre ++ x :: rest)[pre.length]? = some x := by
  rw [List.getElem?_append_right (le_refl _)]
  simp

theorem getD_at_length (pre : List Nat) (x : Nat) (rest : List Nat) :
    (pre ++ x :: rest).getD pre.length 0 = x := by
  rw [List.getD_eq_getElem?_getD, getElem?_at_length]
  rfl

theorem writeParts_cons (p : List Nat) (ps : List (List Nat)) :
    writeParts [] (p :: ps) = (p.length % 256) :: (p ++ writeParts [] ps) := by
  rw [writeParts, writeParts_append]
  simp

/-- Reading back a sequence of labels written by `writeParts`, followed by the
terminating zero byte. -/
theorem readStringLoop_labels (post : List Nat) (length : Nat) :
    ∀ (parts acc : List (List Nat)) (pre : List Nat) (fuel : Nat),
      (∀ p ∈ parts, p ≠ [] ∧ p.length ≤ 63) →
      pre.length + (writeParts [] parts).length ≤ length →
      parts.length < fuel →
      readStringLoop fuel (pre ++ (writeParts [] parts ++ 0 :: post)) length pre.length acc
        = .ret (stringsJoin (acc ++ parts),
                pre.length + (writeParts [] parts).length + 1, none) := by
  intro parts
  induction parts with
  | nil =>
    intro acc pre fuel _ hlen hfuel
    obtain ⟨f, rfl⟩ : ∃ f, fuel = f + 1 := ⟨fuel - 1, by simp at hfuel; omega⟩
    simp only [writeParts, List.nil_append, List.length_nil, Nat.add_zero] at hlen ⊢
    rw [readStringLoop, if_neg (by omega), getElem?_at_length]
    simp
  | cons p ps ih =>
    intro acc pre fuel hwf hlen hfuel
    obtain ⟨f, rfl⟩ : ∃ f, fuel = f + 1 := ⟨fuel - 1, by simp at hfuel; omega⟩
    have hp := hwf p (by simp)
    have hpl : p.length % 256 = p.length := by omega
    have hpos : 0 < p.length := List.length_pos.mpr hp.1
    rw [writeParts_cons, hpl] at hlen ⊢
    simp only [List.length_cons, List.length_append] at hlen
    rw [readStringLoop, if_neg (by omega)]
    simp only [List.cons_append, List.append_assoc, getElem?_at_length]
    rw [if_neg (by omega), if_pos (by omega), if_neg (by omega)]
    have hslice : sliceBytes (pre ++ p.length :: (p ++ (writeParts [] ps ++ 0 :: post)))
        (pre.length + 1) (pre.length + 1 + p.length) = .ret p := by
      unfold sliceBytes
      rw [if_neg (by simp; omega)]
      have h1 : pre ++ p.length :: (p ++ (writeParts [] ps ++ 0 :: post))
          = (pre ++ [p.length]) ++ (p ++ (writeParts [] ps ++ 0 :: post)) := by simp
      rw [h1, List.drop_append_eq_append_drop]
      simp
    rw [hslice]
    simp only
    have h2 : pre ++ p.length :: (p ++ (writeParts [] ps ++ 0 :: post))
        = (pre ++ p.length :: p) ++ (writeParts [] ps ++ 0 :: post) := by simp
    have h3 : pre.length + 1 + p.length = (pre ++ p.length :: p).length := by simp; omega
    rw [h2, h3, ih (acc ++ [p]) (pre ++ p.length :: p) f
      (fun x hx => hwf x (by simp [hx])) (by simp; omega) (by simp at hfuel; omega)]
    simp
    omega

/-- A split string has at least one piece. -/
theorem stringsSplit_ne_nil (s : List Nat) : stringsSplit s ≠ [] := by
  cases s with
  | nil => simp [stringsSplit]
  | cons c cs =>
    rw [stringsSplit]
    split
    · simp
    · split <;> simp

theorem stringsJoin_cons_cons (c : Nat) (p : List Nat) (ps : List (List Nat)) :
    stringsJoin ((c :: p) :: ps) = c :: stringsJoin (p :: ps) := by
  cases ps <;> simp [stringsJoin]

/-- Joining the pieces of a split string gives the string back. -/
theorem stringsJoin_stringsSplit (s : List Nat) : stringsJoin (stringsSplit s) = s := by
  induction s with
  | nil => simp [stringsSplit, stringsJoin]
  | cons c cs ih =>
    rw [stringsSplit]
    split
    · rename_i hc
      cases hs : stringsSplit cs with
      | nil => exact absurd hs (stringsSplit_ne_nil cs)
      | cons p ps =>
        rw [hs] at ih
        simp [stringsJoin, ih, hc]
    · cases hs : stringsSplit cs with
      | nil => exact absurd hs (stringsSplit_ne_nil cs)
      | cons p ps =>
        rw [hs] at ih
        simp only
        rw [stringsJoin_cons_cons, ih]

theorem be16 (v : Nat) (h : v < 65536) : v / 256 % 256 * 256 + v % 256 = v := by omega

/-- Reading a big-endian 16-bit value that sits right after `pre`. -/
theorem readUint16_at (pre : List Nat) (a b : Nat) (rest : List Nat) (length off : Nat)
    (hoff : off = pre.length) (hlen : off + 2 ≤ length) :
    readUint16 (pre ++ a :: b :: rest) length off = .ret (a * 256 + b, off + 2, none) := by
  subst hoff
  unfold readUint16 sliceUint16
  rw [if_neg (by omega), if_neg (by simp)]
  have h1 : (pre ++ a :: b :: rest).getD pre.length 0 = a := getD_at_length pre a (b :: rest)
  have h2 : (pre ++ a :: b :: rest).getD (pre.length + 1) 0 = b := by
    have := getD_at_length (pre ++ [a]) b rest
    simpa using this
  rw [h1, h2]
  rfl

/-- Decoding a one-question message in plain (uncompressed) layout: a header
whose question count is 1 and whose additional count is 0, the labels of the
name, the terminating zero, type and class, and any further bytes. -/
theorem parse_one_question (t1 t2 f1 f2 a1 a2 n1 n2 : Nat) (parts : List (List Nat))
    (y1 y2 c1 c2 : Nat) (ext : List Nat) (fuel length : Nat)
    (hwf : ∀ p ∈ parts, p ≠ [] ∧ p.length ≤ 63) (hfuel : parts.length < fuel)
    (hlen : 12 + (writeParts [] parts).length + 5 ≤ length) :
    ParseMessageFromBuffer fuel
        ([t1, t2, f1, f2, 0, 1, a1, a2, n1, n2, 0, 0]
          ++ (writeParts [] parts ++ 0 :: y1 :: y2 :: c1 :: c2 :: ext)) length
      = .ret ({ Header := unpackFlags
                  { TransactionID := t1 * 256 + t2, QDCOUNT := 1, ANCOUNT := a1 * 256 + a2,
                    NSCOUNT := n1 * 256 + n2, ARCOUNT := 0 } (f1 * 256 + f2)
                Questions := [{ QName := stringsJoin parts, QType := y1 * 256 + y2,
                                QClass := c1 * 256 + c2 }] }, none) := by
  have hread : readString fuel
      ([t1, t2, f1, f2, 0, 1, a1, a2, n1, n2, 0, 0]
        ++ (writeParts [] parts ++ 0 :: y1 :: y2 :: c1 :: c2 :: ext)) length 12
      = .ret (stringsJoin parts, 12 + (writeParts [] parts).length + 1, none) := by
    have := readStringLoop_labels (y1 :: y2 :: c1 :: c2 :: ext) length parts []
      [t1, t2, f1, f2, 0, 1, a1, a2, n1, n2, 0, 0] fuel hwf (by simp; omega) hfuel
    simpa [readString] using this
  have hy := readUint16_at
    ([t1, t2, f1, f2, 0, 1, a1, a2, n1, n2, 0, 0] ++ (writeParts [] parts ++ [0]))
    y1 y2 (c1 :: c2 :: ext) length (12 + (writeParts [] parts).length + 1)
    (by simp; omega) (by omega)
  have hc := readUint16_at
    ([t1, t2, f1, f2, 0, 1, a1, a2, n1, n2, 0, 0] ++ (writeParts [] parts ++ [0, y1, y2]))
    c1 c2 ext length (12 + (writeParts [] parts).length + 1 + 2)
    (by simp; omega) (by omega)
  simp only [List.append_assoc, List.cons_append, List.nil_append] at hy hc hread
  simp only [List.cons_append, List.nil_append]
  generalize writeParts [] parts ++ 0 :: y1 :: y2 :: c1 :: c2 :: ext = tail at hy hc hread ⊢
  have s0 : sliceUint16 (t1 :: t2 :: f1 :: f2 :: 0 :: 1 :: a1 :: a2 :: n1 :: n2 :: 0 :: 0 :: tail) 0
      = .ret (t1 * 256 + t2) := by simp [sliceUint16]
  have s2 : sliceUint16 (t1 :: t2 :: f1 :: f2 :: 0 :: 1 :: a1 :: a2 :: n1 :: n2 :: 0 :: 0 :: tail) 2
      = .ret (f1 * 256 + f2) := by simp [sliceUint16]
  have s4 : sliceUint16 (t1 :: t2 :: f1 :: f2 :: 0 :: 1 :: a1 :: a2 :: n1 :: n2 :: 0 :: 0 :: tail) 4
      = .ret 1 := by simp [sliceUint16]
  have s6 : sliceUint16 (t1 :: t2 :: f1 :: f2 :: 0 :: 1 :: a1 :: a2 :: n1 :: n2 :: 0 :: 0 :: tail) 6
      = .ret (a1 * 256 + a2) := by simp [sliceUint16]
  have s8 : sliceUint16 (t1 :: t2 :: f1 :: f2 :: 0 :: 1 :: a1 :: a2 :: n1 :: n2 :: 0 :: 0 :: tail) 8
      = .ret (n1 * 256 + n2) := by simp [sliceUint16]
  have s10 : sliceUint16 (t1 :: t2 :: f1 :: f2 :: 0 :: 1 :: a1 :: a2 :: n1 :: n2 :: 0 :: 0 :: tail) 10
      = .ret 0 := by simp [sliceUint16]
  unfold ParseMessageFromBuffer
  rw [if_neg (by omega)]
  simp only [s0, s2, s4, s6, s8, s10, Run.ret_bind]
  simp only [parseQuestions, hread, hy, hc, parseAdditional, Run.ret_bind, Run.pure_eq,
    List.nil_append]

/-- The answer loop of `WriteMessageToBuffer` appends to the buffer and does
not panic while the indices stay in range. -/
theorem writeAnswers_ret (answers : List DnsMessageResourceEntry) :
    ∀ (n i : Nat), i + n ≤ answers.length →
      ∃ ext : List Nat, ∀ buf : List Nat, writeAnswers answers n i buf = .ret (buf ++ ext) := by
  intro n
  induction n with
  | zero => intro i _; exact ⟨[], fun buf => by simp [writeAnswers]⟩
  | succ n ih =>
    intro i hi
    obtain ⟨ext, hext⟩ := ih (i + 1) (by omega)
    have hlt : i < answers.length := by omega
    refine ⟨writeStringToBuffer [] answers[i].Name
      ++ [answers[i].RrType / 256 % 256, answers[i].RrType % 256,
          answers[i].Class / 256 % 256, answers[i].Class % 256,
          answers[i].TTL / 16777216 % 256, answers[i].TTL / 65536 % 256,
          answers[i].TTL / 256 % 256, answers[i].TTL % 256,
          answers[i].RdLength / 256 % 256, answers[i].RdLength % 256]
      ++ answers[i].RdData ++ ext, ?_⟩
    intro buf
    rw [writeAnswers, List.getElem?_eq_getElem hlt]
    simp only
    rw [hext, writeStringToBuffer_append]
    simp [appendUint16, appendUint32]

/-- The question loop leaves the answer and authority sections untouched. -/
theorem parseQuestions_sections (fuel : Nat) (buf : List Nat) (length : Nat) :
    ∀ (n off : Nat) (result r : DnsMessage) (off2 : Nat) (e : Option DnsError),
      parseQuestions fuel buf length n off result = .ret (r, off2, e) →
      r.Answers = result.Answers ∧ r.Authority = result.Authority := by
  intro n
  induction n with
  | zero =>
    intro off result r off2 e h
    simp only [parseQuestions, Run.ret.injEq, Prod.mk.injEq] at h
    obtain ⟨rfl, -, -⟩ := h
    exact ⟨rfl, rfl⟩
  | succ n ih =>
    intro off result r off2 e h
    rw [parseQuestions] at h
    repeat' split at h
    all_goals first
      | (cases h; done)
      | (simp only [Run.ret.injEq, Prod.mk.injEq] at h; obtain ⟨rfl, -, -⟩ := h; exact ⟨rfl, rfl⟩)
      | exact (by simpa using ih _ _ _ _ _ h)

/-- The additional-record loop leaves the answer and authority sections
untouched. -/
theorem parseAdditional_sections (fuel : Nat) (buf : List Nat) (length : Nat) :
    ∀ (n off : Nat) (result r : DnsMessage) (e : Option DnsError),
      parseAdditional fuel buf length n off result = .ret (r, e) →
      r.Answers = result.Answers ∧ r.Authority = result.Authority := by
  intro n
  induction n with
  | zero =>
    intro off result r e h
    simp only [parseAdditional, Run.ret.injEq, Prod.mk.injEq] at h
    obtain ⟨rfl, -⟩ := h
    exact ⟨rfl, rfl⟩
  | succ n ih =>
    intro off result r e h
    rw [parseAdditional] at h
    repeat' split at h
    all_goals first
      | (cases h; done)
      | (simp only [Run.ret.injEq, Prod.mk.injEq] at h; obtain ⟨rfl, -⟩ := h; exact ⟨rfl, rfl⟩)
      | exact (by simpa using ih _ _ _ _ h)

/-- Whatever `ParseMessageFromBuffer` returns, its answer and authority
sections are empty: the decoder has no code for them. -/
theorem parse_answers_empty (fuel : Nat) (buf : List Nat) (length : Nat) (m : DnsMessage)
    (e : Option DnsError) (h : ParseMessageFromBuffer fuel buf length = .ret (m, e)) :
    m.Answers = [] ∧ m.Authority = [] := by
  unfold ParseMessageFromBuffer at h
  split at h
  · simp only [Run.ret.injEq, Prod.mk.injEq] at h
    obtain ⟨rfl, -⟩ := h
    exact ⟨rfl, rfl⟩
  · obtain ⟨tid, -, h⟩ := Run.bind_eq_ret h
    obtain ⟨fl, -, h⟩ := Run.bind_eq_ret h
    obtain ⟨qd, -, h⟩ := Run.bind_eq_ret h
    obtain ⟨an, -, h⟩ := Run.bind_eq_ret h
    obtain ⟨ns, -, h⟩ := Run.bind_eq_ret h
    obtain ⟨ar, -, h⟩ := Run.bind_eq_ret h
    dsimp only at h
    cases hpq : parseQuestions fuel buf length qd 12
        { Header := unpackFlags { TransactionID := tid, QDCOUNT := qd, ANCOUNT := an,
                                  NSCOUNT := ns, ARCOUNT := ar } fl } with
    | goPanic => rw [hpq] at h; cases h
    | outOfFuel => rw [hpq] at h; cases h
    | ret v =>
      rw [hpq] at h
      obtain ⟨r1, off1, e1⟩ := v
      have hs := parseQuestions_sections fuel buf length _ _ _ _ _ _ hpq
      simp only [Run.ret_bind] at h
      cases e1 with
      | some err =>
        simp only [Run.pure_eq, Run.ret.injEq, Prod.mk.injEq] at h
        obtain ⟨rfl, -⟩ := h
        exact hs
      | none =>
        simp only at h
        have ha := parseAdditional_sections fuel buf length _ _ _ _ _ h
        exact ⟨ha.1.trans hs.1, ha.2.trans hs.2⟩

/-- The handler on a decoded query: for every query that decodes with response
flag clear, opcode STANDARD,
question count 1 and the single question (google.com, A, IN), `HandleMessage`
returns the 54 bytes made of: the header with the query's transaction ID, flag
word 0x8000 (response flag set, response code OK = 0), QDCOUNT 1, ANCOUNT 1;
the echoed question; and one answer record with name google.com, type A,
class IN, TTL 0, rdlength 4 and rdata 216, 239, 36, 21 (the big-endian bytes
of 3639550997). -/
theorem handleMessage_of_decoded_google (fuel : Nat) (buf : List Nat) (length : Nat)
    (m : DnsMessage) (hparse : ParseMessageFromBuffer fuel buf length = .ret (m, none))
    (hresp : m.Header.isResponse = false) (hop : m.Header.OpCode = 0)
    (hqd : m.Header.QDCOUNT = 1) (hq : m.Questions = [googleQuestion]) :
    HandleMessage fuel buf length =
      .ret (responseHeaderBytes m.Header.TransactionID 0 1
              ++ (googleComWire ++ [0, 1, 0, 1])
              ++ (googleComWire ++ [0, 1, 0, 1, 0, 0, 0, 0, 0, 4, 216, 239, 36, 21]),
            54, none) := by
  have hv : validateMessage m = .ret none := by
    simp [validateMessage, hresp, hop, hqd, hq, DnsMessageOpCodeStandard, validateQuestions,
      googleQuestion, QClass_IN, QType_A, QType_TXT]
  have hw : ∀ b : List Nat, writeStringToBuffer b googleCom = b ++ googleComWire := by
    intro b
    rw [writeStringToBuffer_append]
    rfl
  have hp : prepareResourceEntryForEntry googleQuestion =
      ({ Name := googleCom, RrType := 1, Class := 1, TTL := 0, RdLength := 4,
         RdData := [216, 239, 36, 21] }, true, none) := by
    rfl
  unfold HandleMessage
  rw [hparse]
  simp only [hv, hq, Option.isSome_none, Bool.false_eq_true, if_false, List.getElem?_cons_zero,
    hp]
  simp [WriteMessageToBuffer, writeQuestions, writeAnswers, googleQuestion, hw, appendUint16,
    appendUint32, packFlags, DnsMessageOpCodeStandard, DnsMessageResponseCodeOk,
    responseHeaderBytes, googleComWire]

/-- The handler on a decoded query: for every query that decodes with response
flag clear, opcode
STANDARD and exactly one question, of class IN and of type A or TXT, whose name
has no entry in the zone table of that type, `HandleMessage` returns the header
with the query's transaction ID, response code SERVER_FAILURE = 2, QDCOUNT 1
and ANCOUNT 0, followed by the echoed question and nothing else (no answer
record). -/
theorem handleMessage_of_decoded_miss (fuel : Nat) (buf : List Nat) (length : Nat)
    (m : DnsMessage) (q : DnsMessageQuestionSectionEntry)
    (hparse : ParseMessageFromBuffer fuel buf length = .ret (m, none))
    (hresp : m.Header.isResponse = false) (hop : m.Header.OpCode = 0)
    (hqd : m.Header.QDCOUNT = 1) (hq : m.Questions = [q]) (hclass : q.QClass = 1)
    (hmiss : (q.QType = 1 ∧ (fetchAResourceByName q.QName).2.1 = false) ∨
             (q.QType = 16 ∧ (fetchTxtResourceByName q.QName).2.1 = false)) :
    HandleMessage fuel buf length =
      .ret (responseHeaderBytes m.Header.TransactionID 2 0
              ++ (writeStringToBuffer [] q.QName ++ [0, q.QType, 0, 1]),
            (responseHeaderBytes m.Header.TransactionID 2 0
              ++ (writeStringToBuffer [] q.QName ++ [0, q.QType, 0, 1])).length,
            none) := by
  have hv : validateMessage m = .ret none := by
    rcases hmiss with ⟨ht, _⟩ | ⟨ht, _⟩ <;>
      simp [validateMessage, hresp, hop, hqd, hq, DnsMessageOpCodeStandard, validateQuestions,
        QClass_IN, QType_A, QType_TXT, hclass, ht]
  have hp : (prepareResourceEntryForEntry q).2.1 = false := by
    rcases hmiss with ⟨ht, hm⟩ | ⟨ht, hm⟩
    · simp only [prepareResourceEntryForEntry, prepareResourceEntryA, ht, QType_TXT, QType_A]
      simp only [Nat.reduceEqDiff, if_false, if_true]
      generalize fetchAResourceByName q.QName = r at hm ⊢
      obtain ⟨a, ok, e⟩ := r
      simp only at hm
      simp [hm]
    · simp only [prepareResourceEntryForEntry, ht, QType_TXT, if_true]
      generalize fetchTxtResourceByName q.QName = r at hm ⊢
      obtain ⟨a, ok, e⟩ := r
      simp only at hm
      simp [hm]
  unfold HandleMessage
  rw [hparse]
  simp only [hv, hq, Option.isSome_none, Bool.false_eq_true, if_false, List.getElem?_cons_zero]
  generalize prepareResourceEntryForEntry q = r at hp ⊢
  obtain ⟨entry, ok, e⟩ := r
  simp only at hp
  have hq16 : q.QType / 256 % 256 = 0 ∧ q.QType % 256 = q.QType := by
    rcases hmiss with ⟨ht, _⟩ | ⟨ht, _⟩ <;> simp [ht]
  have hw : ∀ b : List Nat, writeStringToBuffer b q.QName = b ++ writeStringToBuffer [] q.QName :=
    fun b => writeStringToBuffer_append b q.QName
  generalize writeStringToBuffer [] q.QName = wire at hw ⊢
  simp [hp, WriteMessageToBuffer, writeQuestions, writeAnswers, appendUint16, packFlags,
    DnsMessageOpCodeStandard, DnsMessageResponseCodeServerFailure, responseHeaderBytes,
    hw, hclass, hq16]

theorem not_mem_drop_add (buf : List Nat) (off k : Nat) (h : 192 ∉ buf.drop off) :
    192 ∉ buf.drop (off + k) := by
  intro hm
  apply h
  rw [← List.drop_drop] at hm
  exact List.mem_of_mem_drop hm

theorem getElem?_ne_of_not_mem_drop (buf : List Nat) (off : Nat) (h : 192 ∉ buf.drop off) :
    buf[off]? ≠ some 192 := by
  intro hb
  apply h
  have hlt : off < buf.length := by
    by_contra hge
    rw [List.getElem?_eq_none (by omega)] at hb
    cases hb
  rw [List.getElem?_eq_getElem hlt] at hb
  have : buf[off] = 192 := by simpa using hb
  rw [List.drop_eq_getElem_cons hlt, this]
  simp

/-- Without a pointer octet ahead, each iteration of the loop of `readString`
moves the offset forward, so the loop ends within `length + 2 - offset`
iterations. -/
theorem readStringLoop_finishes (buf : List Nat) (length : Nat) :
    ∀ (fuel off : Nat) (parts : List (List Nat)),
      192 ∉ buf.drop off → length + 1 - off < fuel →
      readStringLoop fuel buf length off parts ≠ .outOfFuel := by
  intro fuel
  induction fuel with
  | zero => intro off parts _ h; omega
  | succ f ih =>
    intro off parts hno hf
    rw [readStringLoop]
    split
    · simp
    · rename_i hle
      cases hb : buf[off]? with
      | none => simp
      | some nl =>
        have hnl : nl ≠ 192 := by
          intro h
          exact getElem?_ne_of_not_mem_drop buf off hno (by rw [hb, h])
        simp only
        rw [if_neg (by simpa using hnl)]
        split
        · split
          · simp
          · rename_i hfit
            cases hs : sliceBytes buf (off + 1) (off + 1 + nl) with
            | goPanic => simp
            | outOfFuel => simp [sliceBytes] at hs; split at hs <;> cases hs
            | ret part =>
              simp only
              have := not_mem_drop_add buf off (1 + nl) hno
              rw [← Nat.add_assoc] at this
              exact ih _ _ this (by omega)
        · simp

/-! ### Responses to failed queries -/

theorem packFlags_response (tid rc an : Nat) (hrc : rc < 16)
    (qs : List DnsMessageQuestionSectionEntry) (ans : List DnsMessageResourceEntry) :
    packFlags (responseFor tid rc an qs ans).Header = 32768 + rc := by
  rw [packFlags_eq_sum _ (by simp [responseFor]) (by simp [responseFor])
    (by simpa [responseFor] using hrc)]
  simp [responseFor]

/-- Writing a response with no answer: the header and the first question, or
a panic when there is no question to write. -/
theorem write_response_no_answer (tid rc : Nat) (hrc : rc < 16)
    (qs : List DnsMessageQuestionSectionEntry) :
    WriteMessageToBuffer (responseFor tid rc 0 qs []) =
      match qs with
      | [] => .goPanic
      | q :: _ =>
        .ret (responseHeaderBytes tid rc 0 ++ questionWire q,
              (responseHeaderBytes tid rc 0 ++ questionWire q).length, none) := by
  have hf := packFlags_response tid rc 0 hrc qs []
  have h1 : (32768 + rc) / 256 % 256 = 128 := by omega
  have h2 : (32768 + rc) % 256 = rc := by omega
  cases qs with
  | nil => simp [WriteMessageToBuffer, responseFor, writeQuestions]
  | cons q rest =>
    unfold WriteMessageToBuffer
    rw [hf]
    simp only [responseFor, writeQuestions, List.getElem?_cons_zero, writeAnswers, Run.ret_bind,
      Run.pure_eq]
    rw [writeStringToBuffer_append]
    simp [appendUint16, responseHeaderBytes, questionWire, h1, h2]

/-- The handler after a decode failure: the `FORMAT_ERROR` response over the
questions decoded so far. -/
theorem handleMessage_of_decode_error (fuel : Nat) (buf : List Nat) (length : Nat)
    (m : DnsMessage) (e : DnsError)
    (hparse : ParseMessageFromBuffer fuel buf length = .ret (m, some e)) :
    HandleMessage fuel buf length =
      WriteMessageToBuffer (responseFor m.Header.TransactionID 1 0 m.Questions []) := by
  unfold HandleMessage
  rw [hparse]
  simp [responseFor, DnsMessageOpCodeStandard, DnsMessageResponseCodeFormatError]

/-- The handler after a validation failure: the `FORMAT_ERROR` response over
the decoded questions. -/
theorem handleMessage_of_invalid (fuel : Nat) (buf : List Nat) (length : Nat)
    (m : DnsMessage) (e : DnsError)
    (hparse : ParseMessageFromBuffer fuel buf length = .ret (m, none))
    (hv : validateMessage m = .ret (some e)) :
    HandleMessage fuel buf length =
      WriteMessageToBuffer (responseFor m.Header.TransactionID 1 0 m.Questions []) := by
  unfold HandleMessage
  rw [hparse]
  simp [hv, responseFor, DnsMessageOpCodeStandard, DnsMessageResponseCodeFormatError]

/-! ### What the decoding loops keep and what they add -/

theorem sliceBytes_length (buf : List Nat) (lo n : Nat) (part : List Nat)
    (h : sliceBytes buf lo (lo + n) = .ret part) : part.length = n := by
  unfold sliceBytes at h
  split at h
  · cases h
  · rename_i hle
    simp only [Run.ret.injEq] at h
    rw [← h]
    simp
    omega

/-- The question loop keeps the header and the additional section, and on
success adds one question per iteration. -/
theorem parseQuestions_inv (fuel : Nat) (buf : List Nat) (length : Nat) :
    ∀ (n off : Nat) (result r : DnsMessage) (off2 : Nat) (e : Option DnsError),
      parseQuestions fuel buf length n off result = .ret (r, off2, e) →
      r.Header = result.Header ∧ r.Additional = result.Additional ∧
      (e = none → r.Questions.length = result.Questions.length + n) := by
  intro n
  induction n with
  | zero =>
    intro off result r off2 e h
    simp only [parseQuestions, Run.ret.injEq, Prod.mk.injEq] at h
    obtain ⟨rfl, -, -⟩ := h
    exact ⟨rfl, rfl, fun _ => rfl⟩
  | succ n ih =>
    intro off result r off2 e h
    rw [parseQuestions] at h
    repeat' split at h
    all_goals first
      | (cases h; done)
      | (simp only [Run.ret.injEq, Prod.mk.injEq] at h
         obtain ⟨rfl, -, rfl⟩ := h
         exact ⟨rfl, rfl, fun hc => by cases hc⟩)
      | (obtain ⟨h1, h2, h3⟩ := ih _ _ _ _ _ h
         refine ⟨h1, h2, fun hc => ?_⟩
         rw [h3 hc]
         simp
         omega)

/-- The additional-record loop keeps the header and the questions, and on
success adds one record per iteration, each with `RdLength` equal to the
length of its data. -/
theorem parseAdditional_inv (fuel : Nat) (buf : List Nat) (length : Nat) :
    ∀ (n off : Nat) (result r : DnsMessage) (e : Option DnsError),
      parseAdditional fuel buf length n off result = .ret (r, e) →
      r.Header = result.Header ∧ r.Questions = result.Questions ∧
      (e = none → r.Additional.length = result.Additional.length + n ∧
        ((∀ x ∈ result.Additional, x.RdLength = x.RdData.length) →
          ∀ x ∈ r.Additional, x.RdLength = x.RdData.length)) := by
  intro n
  induction n with
  | zero =>
    intro off result r e h
    simp only [parseAdditional, Run.ret.injEq, Prod.mk.injEq] at h
    obtain ⟨rfl, -⟩ := h
    exact ⟨rfl, rfl, fun _ => ⟨rfl, fun hx => hx⟩⟩
  | succ n ih =>
    intro off result r e h
    rw [parseAdditional] at h
    repeat' split at h
    all_goals first
      | (cases h; done)
      | (simp only [Run.ret.injEq, Prod.mk.injEq] at h
         obtain ⟨rfl, rfl⟩ := h
         exact ⟨rfl, rfl, fun hc => by cases hc⟩)
      | (rename_i hs
         obtain ⟨h1, h2, h3⟩ := ih _ _ _ _ h
         refine ⟨h1, h2, fun hc => ?_⟩
         obtain ⟨h4, h5⟩ := h3 hc
         refine ⟨by rw [h4]; simp; omega, fun hx => h5 ?_⟩
         intro x hxm
         simp only [List.mem_append, List.mem_singleton] at hxm
         rcases hxm with hxm | rfl
         · exact hx x hxm
         · exact (sliceBytes_length _ _ _ _ hs).symm)

/-- A successful or failed decode of at least 12 bytes: the header fields are
the six big-endian words at the start of the buffer, and on success the section
lengths are the announced counts. -/
theorem parse_decompose (fuel : Nat) (buf : List Nat) (length : Nat) (m : DnsMessage)
    (e : Option DnsError) (h : ParseMessageFromBuffer fuel buf length = .ret (m, e))
    (hlen : 12 ≤ length) :
    ∃ tid fl qd an ns ar : Nat,
      sliceUint16 buf 0 = .ret tid ∧ sliceUint16 buf 2 = .ret fl ∧
      sliceUint16 buf 4 = .ret qd ∧ sliceUint16 buf 6 = .ret an ∧
      sliceUint16 buf 8 = .ret ns ∧ sliceUint16 buf 10 = .ret ar ∧
      m.Header = unpackFlags { TransactionID := tid, QDCOUNT := qd, ANCOUNT := an,
                               NSCOUNT := ns, ARCOUNT := ar } fl ∧
      (e = none → m.Questions.length = qd ∧ m.Additional.length = ar ∧
        ∀ x ∈ m.Additional, x.RdLength = x.RdData.length) := by
  unfold ParseMessageFromBuffer at h
  rw [if_neg (by omega)] at h
  obtain ⟨tid, h0, h⟩ := Run.bind_eq_ret h
  obtain ⟨fl, h2, h⟩ := Run.bind_eq_ret h
  obtain ⟨qd, h4, h⟩ := Run.bind_eq_ret h
  obtain ⟨an, h6, h⟩ := Run.bind_eq_ret h
  obtain ⟨ns, h8, h⟩ := Run.bind_eq_ret h
  obtain ⟨ar, h10, h⟩ := Run.bind_eq_ret h
  dsimp only at h
  refine ⟨tid, fl, qd, an, ns, ar, h0, h2, h4, h6, h8, h10, ?_⟩
  cases hpq : parseQuestions fuel buf length qd 12
      { Header := unpackFlags { TransactionID := tid, QDCOUNT := qd, ANCOUNT := an,
                                NSCOUNT := ns, ARCOUNT := ar } fl } with
  | goPanic => rw [hpq] at h; cases h
  | outOfFuel => rw [hpq] at h; cases h
  | ret v =>
    rw [hpq] at h
    obtain ⟨r1, off1, e1⟩ := v
    obtain ⟨q1, q2, q3⟩ := parseQuestions_inv fuel buf length _ _ _ _ _ _ hpq
    simp only [Run.ret_bind] at h
    cases e1 with
    | some err =>
      simp only [Run.pure_eq, Run.ret.injEq, Prod.mk.injEq] at h
      obtain ⟨rfl, rfl⟩ := h
      exact ⟨q1, fun hc => by cases hc⟩
    | none =>
      simp only at h
      obtain ⟨a1, a2, a3⟩ := parseAdditional_inv fuel buf length _ _ _ _ _ h
      refine ⟨a1.trans q1, fun hc => ?_⟩
      obtain ⟨a4, a5⟩ := a3 hc
      refine ⟨?_, ?_, ?_⟩
      · rw [a2, q3 rfl]; simp
      · rw [a4, q2]; simp
      · exact a5 (by rw [q2]; simp)

theorem sliceUint16_ret (buf : List Nat) (off v : Nat) (h : sliceUint16 buf off = .ret v) :
    off + 2 ≤ buf.length ∧ v = buf.getD off 0 * 256 + buf.getD (off + 1) 0 := by
  unfold sliceUint16 at h
  split at h
  · cases h
  · simp only [Run.ret.injEq] at h
    exact ⟨by omega, h.symm⟩

/-! ### The shape of every response -/

theorem writeQuestions_extends (qs : List DnsMessageQuestionSectionEntry) :
    ∀ (n i : Nat) (buf out : List Nat),
      writeQuestions qs n i buf = .ret out → ∃ ext : List Nat, out = buf ++ ext := by
  intro n
  induction n with
  | zero =>
    intro i buf out h
    simp only [writeQuestions, Run.ret.injEq] at h
    exact ⟨[], by simp [h]⟩
  | succ n ih =>
    intro i buf out h
    rw [writeQuestions] at h
    split at h
    · cases h
    · obtain ⟨ext, hext⟩ := ih _ _ _ h
      rw [writeStringToBuffer_append] at hext
      exact ⟨_, by rw [hext]; simp only [appendUint16, List.append_assoc]; rfl⟩

theorem writeAnswers_extends (answers : List DnsMessageResourceEntry) :
    ∀ (n i : Nat) (buf out : List Nat),
      writeAnswers answers n i buf = .ret out → ∃ ext : List Nat, out = buf ++ ext := by
  intro n
  induction n with
  | zero =>
    intro i buf out h
    simp only [writeAnswers, Run.ret.injEq] at h
    exact ⟨[], by simp [h]⟩
  | succ n ih =>
    intro i buf out h
    rw [writeAnswers] at h
    split at h
    · cases h
    · obtain ⟨ext, hext⟩ := ih _ _ _ h
      rw [writeStringToBuffer_append] at hext
      exact ⟨_, by rw [hext]; simp only [appendUint16, appendUint32, List.append_assoc]; rfl⟩

/-- Whatever `WriteMessageToBuffer` returns starts with the 12 header bytes. -/
theorem write_starts_with_header (msg : DnsMessage) (r : List Nat × Nat × Option DnsError)
    (h : WriteMessageToBuffer msg = .ret r) :
    ∃ rest : List Nat,
      r.1 = [msg.Header.TransactionID / 256 % 256, msg.Header.TransactionID % 256,
             packFlags msg.Header / 256 % 256, packFlags msg.Header % 256,
             msg.Header.QDCOUNT / 256 % 256, msg.Header.QDCOUNT % 256,
             msg.Header.ANCOUNT / 256 % 256, msg.Header.ANCOUNT % 256,
             msg.Header.NSCOUNT / 256 % 256, msg.Header.NSCOUNT % 256,
             msg.Header.ARCOUNT / 256 % 256, msg.Header.ARCOUNT % 256] ++ rest := by
  unfold WriteMessageToBuffer at h
  obtain ⟨b1, hq, h⟩ := Run.bind_eq_ret h
  obtain ⟨b2, ha, h⟩ := Run.bind_eq_ret h
  obtain ⟨e1, rfl⟩ := writeQuestions_extends _ _ _ _ _ hq
  obtain ⟨e2, rfl⟩ := writeAnswers_extends _ _ _ _ _ ha
  simp only [Run.pure_eq, Run.ret.injEq] at h
  rw [← h]
  exact ⟨e1 ++ e2, by simp [appendUint16]⟩

/-- Every response of `HandleMessage` is the writing of the fixed response
message with one of the response codes 0, 1, 2 and answer count 0 or 1. -/
theorem handleMessage_shape (fuel : Nat) (buf : List Nat) (length : Nat)
    (r : List Nat × Nat × Option DnsError) (h : HandleMessage fuel buf length = .ret r) :
    ∃ (m : DnsMessage) (e : Option DnsError) (rc an : Nat)
      (ans : List DnsMessageResourceEntry),
      ParseMessageFromBuffer fuel buf length = .ret (m, e) ∧ rc ≤ 2 ∧ an ≤ 1 ∧
      WriteMessageToBuffer (responseFor m.Header.TransactionID rc an m.Questions ans)
        = .ret r := by
  unfold HandleMessage at h
  cases hp : ParseMessageFromBuffer fuel buf length with
  | goPanic => rw [hp] at h; cases h
  | outOfFuel => rw [hp] at h; cases h
  | ret v =>
    obtain ⟨m, e⟩ := v
    rw [hp] at h
    simp only at h
    cases e with
    | some err =>
      refine ⟨m, some err, 1, 0, [], rfl, by decide, by decide, ?_⟩
      simpa [responseFor, DnsMessageOpCodeStandard, DnsMessageResponseCodeFormatError] using h
    | none =>
      simp only [Option.isSome_none, Bool.false_eq_true, if_false] at h
      cases hv : validateMessage m with
      | goPanic => rw [hv] at h; cases h
      | outOfFuel => rw [hv] at h; cases h
      | ret ve =>
        rw [hv] at h
        cases ve with
        | some verr =>
          refine ⟨m, none, 1, 0, [], rfl, by decide, by decide, ?_⟩
          simpa [responseFor, DnsMessageOpCodeStandard, DnsMessageResponseCodeFormatError]
            using h
        | none =>
          simp only at h
          cases hq : m.Questions[0]? with
          | none => rw [hq] at h; cases h
          | some q =>
            rw [hq] at h
            simp only at h
            generalize prepareResourceEntryForEntry q = prep at h
            obtain ⟨entry, ok, perr⟩ := prep
            simp only at h
            split at h
            · refine ⟨m, none, 2, 0, [], rfl, by decide, by decide, ?_⟩
              simpa [responseFor, DnsMessageOpCodeStandard,
                DnsMessageResponseCodeServerFailure] using h
            · refine ⟨m, none, 0, 1, [entry], rfl, by decide, by decide, ?_⟩
              simpa [responseFor, DnsMessageOpCodeStandard, DnsMessageResponseCodeOk] using h

/-! ### Splitting a joined name -/

theorem stringsSplit_append_dot (l rest : List Nat) (h : 46 ∉ l) :
    stringsSplit (l ++ 46 :: rest) = l :: stringsSplit rest := by
  induction l with
  | nil => simp [stringsSplit]
  | cons c l ih =>
    have hc : c ≠ 46 := fun hc => h (by simp [hc])
    have hl : 46 ∉ l := fun hl => h (by simp [hl])
    rw [List.cons_append, stringsSplit, if_neg hc, ih hl]

theorem stringsSplit_dot_free (l : List Nat) (h : 46 ∉ l) : stringsSplit l = [l] := by
  induction l with
  | nil => simp [stringsSplit]
  | cons c l ih =>
    have hc : c ≠ 46 := fun hc => h (by simp [hc])
    have hl : 46 ∉ l := fun hl => h (by simp [hl])
    rw [stringsSplit, if_neg hc, ih hl]

/-- Splitting the join of dot-free labels gives the labels back. -/
theorem stringsSplit_stringsJoin (labels : List (List Nat)) (hne : labels ≠ [])
    (h : ∀ l ∈ labels, 46 ∉ l) : stringsSplit (stringsJoin labels) = labels := by
  induction labels with
  | nil => exact absurd rfl hne
  | cons l ls ih =>
    cases ls with
    | nil => simpa [stringsJoin] using stringsSplit_dot_free l (h l (by simp))
    | cons l2 ls2 =>
      rw [stringsJoin, stringsSplit_append_dot l _ (h l (by simp)),
        ih (by simp) (fun x hx => h x (by simp [hx]))]

theorem writeParts_eq_labelsWire (labels : List (List Nat))
    (h : ∀ l ∈ labels, l.length ≤ 63) : writeParts [] labels = labelsWire labels := by
  induction labels with
  | nil => rfl
  | cons l ls ih =>
    have hl := h l (by simp)
    rw [writeParts_cons, ih (fun x hx => h x (by simp [hx])), labelsWire,
      show l.length % 256 = l.length by omega]
    rfl

/-! ### Pointer cycles -/

/-- The handler after a lookup miss: the `SERVER_FAILURE` response over the
decoded questions. -/
theorem handleMessage_of_miss (fuel : Nat) (buf : List Nat) (length : Nat)
    (m : DnsMessage) (q : DnsMessageQuestionSectionEntry)
    (hparse : ParseMessageFromBuffer fuel buf length = .ret (m, none))
    (hv : validateMessage m = .ret none) (hq : m.Questions[0]? = some q)
    (hp : (prepareResourceEntryForEntry q).2.1 = false) :
    HandleMessage fuel buf length =
      WriteMessageToBuffer (responseFor m.Header.TransactionID 2 0 m.Questions []) := by
  unfold HandleMessage
  rw [hparse]
  simp only [hv, hq, Option.isSome_none, Bool.false_eq_true, if_false]
  generalize prepareResourceEntryForEntry q = r at hp ⊢
  obtain ⟨entry, ok, e⟩ := r
  simp only at hp
  simp [hp, responseFor, DnsMessageOpCodeStandard, DnsMessageResponseCodeServerFailure]

/-- A question of class IN and type A or TXT whose name misses the zone table
passes validation as the single question of a standard query, and no record is
prepared for it. -/
theorem miss_question (m : DnsMessage) (q : DnsMessageQuestionSectionEntry)
    (hresp : m.Header.isResponse = false) (hop : m.Header.OpCode = 0)
    (hqd : m.Header.QDCOUNT = 1) (hq : m.Questions = [q]) (hclass : q.QClass = 1)
    (hmiss : (q.QType = 1 ∧ (fetchAResourceByName q.QName).2.1 = false) ∨
             (q.QType = 16 ∧ (fetchTxtResourceByName q.QName).2.1 = false)) :
    validateMessage m = .ret none ∧ (prepareResourceEntryForEntry q).2.1 = false := by
  constructor
  · rcases hmiss with ⟨ht, _⟩ | ⟨ht, _⟩ <;>
      simp [validateMessage, hresp, hop, hqd, hq, DnsMessageOpCodeStandard, validateQuestions,
        QClass_IN, QType_A, QType_TXT, hclass, ht]
  · rcases hmiss with ⟨ht, hm⟩ | ⟨ht, hm⟩
    · simp only [prepareResourceEntryForEntry, prepareResourceEntryA, ht, QType_TXT, QType_A]
      simp only [Nat.reduceEqDiff, if_false, if_true]
      generalize fetchAResourceByName q.QName = r at hm ⊢
      obtain ⟨a, ok, e⟩ := r
      simp only at hm
      simp [hm]
    · simp only [prepareResourceEntryForEntry, ht, QType_TXT, if_true]
      generalize fetchTxtResourceByName q.QName = r at hm ⊢
      obtain ⟨a, ok, e⟩ := r
      simp only at hm
      simp [hm]

/-! ### Special cases -/

/-- A sufficient condition: `readString` finishes on every input on which it
meets no pointer octet: if no byte of the buffer at an index from the start
offset on is `0xC0`, then with any budget above `length + 1 - offset` the loop reaches
a result, the one it reaches within `length + 2` iterations. Pointer
following is not bounded: on the buffer whose bytes at offset 12 are
`0xC0 0x0C` no budget is enough. -/
theorem readString_finishes_without_pointer (buf : List Nat) (length off fuel : Nat)
    (hno : 192 ∉ buf.drop off) (hfuel : length + 1 - off < fuel) :
    readString fuel buf length off ≠ .outOfFuel ∧
    readString fuel buf length off = readString (length + 2) buf length off ∧
    ∀ f : Nat, readString f selfPointerBuffer 14 12 = .outOfFuel := by
  have h0 : readString fuel buf length off ≠ .outOfFuel :=
    readStringLoop_finishes buf length _ off [] hno hfuel
  have h1 : readString (length + 2) buf length off ≠ .outOfFuel :=
    readStringLoop_finishes buf length _ off [] hno (by omega)
  have h2 : readString fuel buf length off = readString (length + 2) buf length off := by
    rcases Nat.le_total fuel (length + 2) with hle | hle
    · have := readStringLoop_mono buf length fuel (length + 2 - fuel) off [] _ rfl h0
      rw [show fuel + (length + 2 - fuel) = length + 2 by omega] at this
      exact this.symm
    · have := readStringLoop_mono buf length (length + 2) (fuel - (length + 2)) off [] _ rfl h1
      rw [show length + 2 + (fuel - (length + 2)) = fuel by omega] at this
      exact this
  refine ⟨h0, h2, ?_⟩
  intro f
  induction f with
  | zero => rfl
  | succ n ih =>
    rw [readString, readStringLoop]
    simp only [readString, selfPointerBuffer] at ih ⊢
    simp [sliceUint16, ih]

theorem readString_finishes_without_pointer_witness :
    readString 18 googleQuery 28 12 ≠ .outOfFuel ∧
    readString 18 googleQuery 28 12 = readString (28 + 2) googleQuery 28 12 ∧
    ∀ f : Nat, readString f selfPointerBuffer 14 12 = .outOfFuel :=
  readString_finishes_without_pointer googleQuery 28 12 18 (by decide) (by decide)

/-- The handler on a plain query without additional records whose lookup
misses: for every query buffer in plain wire layout with response flag clear
and opcode STANDARD (first flag byte below 8), QDCOUNT 1, ARCOUNT 0 and one
question of class IN whose type is A or TXT and whose name (any sequence of
non-empty labels of at most 63 bytes) has no entry in the zone table of that
type, `HandleMessage` returns the header with the query's transaction ID,
response code SERVER_FAILURE = 2, QDCOUNT 1 and ANCOUNT 0, followed by the
echoed question and nothing else (no answer record). -/
theorem handleMessage_lookup_miss (t1 t2 f1 f2 a1 a2 n1 n2 : Nat) (parts : List (List Nat))
    (qtype : Nat) (ext : List Nat) (fuel length : Nat)
    (ht1 : t1 < 256) (ht2 : t2 < 256) (hf1 : f1 < 8) (hf2 : f2 < 256)
    (hwf : ∀ p ∈ parts, p ≠ [] ∧ p.length ≤ 63) (hfuel : parts.length < fuel)
    (hlen : 12 + (writeParts [] parts).length + 5 ≤ length)
    (hmiss : (qtype = 1 ∧ (fetchAResourceByName (stringsJoin parts)).2.1 = false) ∨
             (qtype = 16 ∧ (fetchTxtResourceByName (stringsJoin parts)).2.1 = false)) :
    HandleMessage fuel
        ([t1, t2, f1, f2, 0, 1, a1, a2, n1, n2, 0, 0]
          ++ (writeParts [] parts ++ 0 :: 0 :: qtype :: 0 :: 1 :: ext)) length =
      .ret ([t1, t2, 128, 2, 0, 1, 0, 0, 0, 0, 0, 0]
              ++ (writeStringToBuffer [] (stringsJoin parts) ++ [0, qtype, 0, 1]),
            ([t1, t2, 128, 2, 0, 1, 0, 0, 0, 0, 0, 0]
              ++ (writeStringToBuffer [] (stringsJoin parts) ++ [0, qtype, 0, 1])).length,
            none) := by
  have hp := parse_one_question t1 t2 f1 f2 a1 a2 n1 n2 parts 0 qtype 0 1 ext fuel length
    hwf hfuel hlen
  obtain ⟨u1, u2, -⟩ := unpackFlags_fields
    { TransactionID := t1 * 256 + t2, QDCOUNT := 1, ANCOUNT := a1 * 256 + a2,
      NSCOUNT := n1 * 256 + n2, ARCOUNT := 0 } (f1 * 256 + f2)
  have h := handleMessage_of_decoded_miss fuel _ length _
    { QName := stringsJoin parts, QType := 0 * 256 + qtype, QClass := 0 * 256 + 1 } hp
    (by rw [u1]; simp; omega) (by rw [u2]; omega) rfl rfl rfl (by simpa using hmiss)
  rw [h]
  have hid : (t1 * 256 + t2) / 256 % 256 = t1 ∧ (t1 * 256 + t2) % 256 = t2 := by omega
  simp only [responseHeaderBytes, unpackFlags, hid.1, hid.2, Nat.zero_mul, Nat.zero_add]

theorem handleMessage_lookup_miss_witness :
    HandleMessage 3 exampleQuery 29 =
      .ret ([0x12, 0x34, 128, 2, 0, 1, 0, 0, 0, 0, 0, 0,
             7, 101, 120, 97, 109, 112, 108, 101, 3, 99, 111, 109, 0, 0, 1, 0, 1], 29, none) :=
  handleMessage_lookup_miss 0x12 0x34 0 0 0 0 0 0
    [[101, 120, 97, 109, 112, 108, 101], [99, 111, 109]] 1 [] 3 29
    (by decide) (by decide) (by decide) (by decide) (by decide) (by decide) (by decide)
    (Or.inl ⟨rfl, rfl⟩)

/-! ## Claims -/

/-- C1 (amended): for every message with exactly one question, zero or one
answers and no additional records, whose header counts equal the section
lengths and whose question name is made of non-empty labels of at most 63
bytes, `WriteMessageToBuffer` returns bytes on which `ParseMessageFromBuffer`
succeeds; the decoded header counts and question list equal those of the
message, and the decoded answer list is empty (so it equals the message's
answer list exactly when the message has no answer). -/
theorem roundtrip_one_question (m : DnsMessage) (q : DnsMessageQuestionSectionEntry)
    (hq : m.Questions = [q]) (hqd : m.Header.QDCOUNT = 1)
    (han : m.Header.ANCOUNT = m.Answers.length) (han1 : m.Answers.length ≤ 1)
    (hns : m.Header.NSCOUNT = m.Authority.length) (hns16 : m.Header.NSCOUNT < 65536)
    (har : m.Header.ARCOUNT = m.Additional.length) (hadd : m.Additional = [])
    (hname : validName q.QName) (htype : q.QType < 65536) (hclass : q.QClass < 65536) :
    ∃ bytes : List Nat,
      WriteMessageToBuffer m = .ret (bytes, bytes.length, none) ∧
      ∀ fuel : Nat, (stringsSplit q.QName).length < fuel →
        ∃ decoded : DnsMessage,
          ParseMessageFromBuffer fuel bytes bytes.length = .ret (decoded, none) ∧
          decoded.Header.QDCOUNT = m.Header.QDCOUNT ∧
          decoded.Header.ANCOUNT = m.Header.ANCOUNT ∧
          decoded.Header.NSCOUNT = m.Header.NSCOUNT ∧
          decoded.Header.ARCOUNT = m.Header.ARCOUNT ∧
          decoded.Questions = m.Questions ∧
          decoded.Answers = [] := by
  obtain ⟨ext, hext⟩ := writeAnswers_ret m.Answers m.Header.ANCOUNT 0 (by omega)
  have har0 : m.Header.ARCOUNT = 0 := by rw [har, hadd]; rfl
  have hwrite : WriteMessageToBuffer m =
      .ret ([m.Header.TransactionID / 256 % 256, m.Header.TransactionID % 256,
             packFlags m.Header / 256 % 256, packFlags m.Header % 256, 0, 1,
             m.Header.ANCOUNT / 256 % 256, m.Header.ANCOUNT % 256,
             m.Header.NSCOUNT / 256 % 256, m.Header.NSCOUNT % 256, 0, 0]
            ++ (writeParts [] (stringsSplit q.QName)
                ++ 0 :: (q.QType / 256 % 256) :: (q.QType % 256) :: (q.QClass / 256 % 256)
                  :: (q.QClass % 256) :: ext),
            ([m.Header.TransactionID / 256 % 256, m.Header.TransactionID % 256,
             packFlags m.Header / 256 % 256, packFlags m.Header % 256, 0, 1,
             m.Header.ANCOUNT / 256 % 256, m.Header.ANCOUNT % 256,
             m.Header.NSCOUNT / 256 % 256, m.Header.NSCOUNT % 256, 0, 0]
            ++ (writeParts [] (stringsSplit q.QName)
                ++ 0 :: (q.QType / 256 % 256) :: (q.QType % 256) :: (q.QClass / 256 % 256)
                  :: (q.QClass % 256) :: ext)).length, none) := by
    unfold WriteMessageToBuffer
    simp only [hq, hqd, har0, writeQuestions, List.getElem?_cons_zero, Run.ret_bind, hext,
      Run.pure_eq]
    rw [writeStringToBuffer_append]
    simp [appendUint16, writeStringToBuffer]
  refine ⟨_, hwrite, ?_⟩
  intro fuel hfuel
  refine ⟨_, parse_one_question _ _ _ _ _ _ _ _ _ _ _ _ _ ext fuel _ hname hfuel
    (by simp; omega), ?_⟩
  refine ⟨?_, ?_, ?_, ?_, ?_, rfl⟩
  · rw [hqd]; rfl
  · show m.Header.ANCOUNT / 256 % 256 * 256 + m.Header.ANCOUNT % 256 = _
    omega
  · show m.Header.NSCOUNT / 256 % 256 * 256 + m.Header.NSCOUNT % 256 = _
    omega
  · rw [har0]; rfl
  · rw [hq, stringsJoin_stringsSplit, be16 _ htype, be16 _ hclass]

theorem roundtrip_one_question_witness :
    ∃ bytes : List Nat,
      WriteMessageToBuffer oneQuestionMessage = .ret (bytes, bytes.length, none) ∧
      ∀ fuel : Nat, (stringsSplit googleQuestion.QName).length < fuel →
        ∃ decoded : DnsMessage,
          ParseMessageFromBuffer fuel bytes bytes.length = .ret (decoded, none) ∧
          decoded.Header.QDCOUNT = oneQuestionMessage.Header.QDCOUNT ∧
          decoded.Header.ANCOUNT = oneQuestionMessage.Header.ANCOUNT ∧
          decoded.Header.NSCOUNT = oneQuestionMessage.Header.NSCOUNT ∧
          decoded.Header.ARCOUNT = oneQuestionMessage.Header.ARCOUNT ∧
          decoded.Questions = oneQuestionMessage.Questions ∧
          decoded.Answers = [] :=
  roundtrip_one_question oneQuestionMessage googleQuestion rfl rfl rfl (by decide) rfl
    (by decide) rfl rfl (by decide) (by decide) (by decide)

/-- C1 (counterexample): the message with the question (google.com, A, IN) and
one answer record is structurally valid, and it is written to 54 bytes that
decode successfully, but the decoded answer list is empty and differs from the
message's answer list, within every step budget. And a message that carries
one additional record is written without that record, so that decoding the
bytes panics. -/
theorem roundtrip_loses_answer :
    WriteMessageToBuffer oneAnswerMessage = .ret (oneAnswerBytes, 54, none) ∧
    (∃ decoded : DnsMessage,
      ParseMessageFromBuffer 3 oneAnswerBytes 54 = .ret (decoded, none) ∧
      decoded.Header.ANCOUNT = 1 ∧ decoded.Answers = [] ∧
      decoded.Answers ≠ oneAnswerMessage.Answers) ∧
    (∀ (fuel : Nat) (decoded : DnsMessage) (e : Option DnsError),
      ParseMessageFromBuffer fuel oneAnswerBytes 54 = .ret (decoded, e) →
      decoded.Answers ≠ oneAnswerMessage.Answers) ∧
    WriteMessageToBuffer oneAdditionalMessage = .ret (oneAdditionalBytes, 28, none) ∧
    (∀ fuel : Nat, ParseMessageFromBuffer (fuel + 3) oneAdditionalBytes 28 = .goPanic) := by
  refine ⟨rfl, ⟨_, rfl, rfl, rfl, by decide⟩, ?_, rfl, fun fuel => rfl⟩
  intro fuel decoded e h
  rw [(parse_answers_empty fuel _ _ _ _ h).1]
  decide

/-- C2 (evaluation of the code at the failing inputs): `HandleMessage` panics
on every datagram shorter than 12 bytes, whatever the buffer holds, and on
every 12-byte query whose question count is 0: the response is built with
`QDCOUNT` 1 over the decoded (empty) question list, and `WriteMessageToBuffer`
indexes `Questions[0]`. -/
theorem handleMessage_panics_without_question (fuel : Nat) (buf : List Nat) (length : Fin 12) :
    HandleMessage fuel buf length.val = .goPanic ∧
    HandleMessage fuel (headerBytes 0 ++ buf) 12 = .goPanic := by
  constructor
  · simp [HandleMessage, ParseMessageFromBuffer, length.isLt, WriteMessageToBuffer,
      writeQuestions]
  · have hp : ParseMessageFromBuffer fuel (headerBytes 0 ++ buf) 12
        = .ret ({ Header := unpackFlags {} 0 }, none) := by
      have hs : ∀ k, k + 2 ≤ 12 → sliceUint16 (headerBytes 0 ++ buf) k = .ret 0 := by
        intro k hk
        have hk' : k = 0 ∨ k = 1 ∨ k = 2 ∨ k = 3 ∨ k = 4 ∨ k = 5 ∨ k = 6 ∨ k = 7 ∨ k = 8 ∨
            k = 9 ∨ k = 10 := by omega
        rcases hk' with h | h | h | h | h | h | h | h | h | h | h <;> subst h <;>
          simp [sliceUint16, headerBytes]
      simp [ParseMessageFromBuffer, hs, parseQuestions, parseAdditional]
    have hv : validateMessage { Header := unpackFlags {} 0 } = .ret (some .NotValidMessage) := by
      rfl
    simp [HandleMessage, hp, hv, WriteMessageToBuffer, writeQuestions]

/-- C3 (evaluation of the code at the failing inputs): with `length = 12` and a
header announcing one question, `readString` is entered at offset 12, passes
its guard `bufferOffset > length` and reads `buf[12]`. On the 12-byte buffer
that read panics instead of returning `MessageParsingFailed`; on two 13-byte
buffers that agree on every index below `length` the outcomes differ, so the
byte at index `length` was read. -/
theorem parse_reads_at_index_length (fuel : Nat) :
    ParseMessageFromBuffer (fuel + 1) (headerBytes 1) 12 = .goPanic ∧
    ParseMessageFromBuffer (fuel + 1) (headerBytes 1 ++ [0]) 12 =
      .ret ({ Header := { QDCOUNT := 1 } }, some .MessageParsingFailed) ∧
    ParseMessageFromBuffer (fuel + 1) (headerBytes 1 ++ [0xC0]) 12 = .goPanic := by
  refine ⟨rfl, rfl, rfl⟩

/-- C4: for every buffer (of any size) and every length below 12,
`ParseMessageFromBuffer` returns the error `MessageTooShort` together with a
message whose question list is empty, and the outcome is the same for every
other buffer, the empty one included, so no byte of the buffer is read. -/
theorem parse_short_is_MessageTooShort (fuel : Nat) (buf : List Nat) (length : Nat)
    (h : length < 12) :
    ∃ m : DnsMessage,
      ParseMessageFromBuffer fuel buf length = .ret (m, some .MessageTooShort) ∧
      m.Questions = [] ∧
      ∀ other : List Nat,
        ParseMessageFromBuffer fuel other length = ParseMessageFromBuffer fuel buf length := by
  refine ⟨{}, ?_, rfl, ?_⟩
  · simp [ParseMessageFromBuffer, h]
  · intro other
    simp [ParseMessageFromBuffer, h]

theorem parse_short_is_MessageTooShort_witness :
    ∃ m : DnsMessage,
      ParseMessageFromBuffer 5 [1, 2, 3] 3 = .ret (m, some .MessageTooShort) ∧
      m.Questions = [] ∧
      ∀ other : List Nat,
        ParseMessageFromBuffer 5 other 3 = ParseMessageFromBuffer 5 [1, 2, 3] 3 :=
  parse_short_is_MessageTooShort 5 [1, 2, 3] 3 (by decide)

/-- C5: header flag packing is a bijection at the documented bit positions:
for every 16-bit word `w`, unpacking it as `ParseMessageFromBuffer` does and
repacking the result as `WriteMessageToBuffer` does gives `w`; and for every
header `h` with opcode below 16, reserved below 8 and response code below 16,
unpacking the packed word gives back the eight flag sub-fields of `h`. -/
theorem flags_pack_unpack_bijective (w : Nat) (h base : DnsMessageHeader) (hw : w < 65536)
    (hop : h.OpCode < 16) (hres : h.Reserved < 8) (hrc : h.ResponseCode < 16) :
    packFlags (unpackFlags base w) = w ∧
    (unpackFlags base (packFlags h)).isResponse = h.isResponse ∧
    (unpackFlags base (packFlags h)).OpCode = h.OpCode ∧
    (unpackFlags base (packFlags h)).AuthoritativeAnswer = h.AuthoritativeAnswer ∧
    (unpackFlags base (packFlags h)).TrunCation = h.TrunCation ∧
    (unpackFlags base (packFlags h)).RecursionDesired = h.RecursionDesired ∧
    (unpackFlags base (packFlags h)).RecursionAvailable = h.RecursionAvailable ∧
    (unpackFlags base (packFlags h)).Reserved = h.Reserved ∧
    (unpackFlags base (packFlags h)).ResponseCode = h.ResponseCode := by
  constructor
  · obtain ⟨f1, f2, f3, f4, f5, f6, f7, f8⟩ := unpackFlags_fields base w
    rw [packFlags_eq_sum _ (by omega) (by omega) (by omega), f1, f2, f3, f4, f5, f6, f7, f8]
    simp only [ite_mod_two]
    omega
  · obtain ⟨f1, f2, f3, f4, f5, f6, f7, f8⟩ := unpackFlags_fields base (packFlags h)
    obtain ⟨k1, k2, k3, k4, k5, k6, k7, k8⟩ :=
      sum_fields (if h.isResponse then 32768 else 0) h.OpCode
        (if h.AuthoritativeAnswer then 1024 else 0) (if h.TrunCation then 512 else 0)
        (if h.RecursionDesired then 256 else 0) (if h.RecursionAvailable then 128 else 0)
        h.Reserved h.ResponseCode (by split <;> simp) hop (by split <;> simp)
        (by split <;> simp) (by split <;> simp) (by split <;> simp) hres hrc
    rw [f1, f2, f3, f4, f5, f6, f7, f8, packFlags_eq_sum h hop hres hrc,
      k1, k2, k3, k4, k5, k6, k7, k8]
    refine ⟨?_, rfl, ?_, ?_, ?_, ?_, rfl, rfl⟩
    · cases h.isResponse <;> rfl
    · cases h.AuthoritativeAnswer <;> rfl
    · cases h.TrunCation <;> rfl
    · cases h.RecursionDesired <;> rfl
    · cases h.RecursionAvailable <;> rfl

theorem flags_pack_unpack_bijective_witness :
    packFlags (unpackFlags {} 0x8182) = 0x8182 ∧
    (unpackFlags {} (packFlags sampleHeader)).isResponse = sampleHeader.isResponse ∧
    (unpackFlags {} (packFlags sampleHeader)).OpCode = sampleHeader.OpCode ∧
    (unpackFlags {} (packFlags sampleHeader)).AuthoritativeAnswer
      = sampleHeader.AuthoritativeAnswer ∧
    (unpackFlags {} (packFlags sampleHeader)).TrunCation = sampleHeader.TrunCation ∧
    (unpackFlags {} (packFlags sampleHeader)).RecursionDesired = sampleHeader.RecursionDesired ∧
    (unpackFlags {} (packFlags sampleHeader)).RecursionAvailable
      = sampleHeader.RecursionAvailable ∧
    (unpackFlags {} (packFlags sampleHeader)).Reserved = sampleHeader.Reserved ∧
    (unpackFlags {} (packFlags sampleHeader)).ResponseCode = sampleHeader.ResponseCode :=
  flags_pack_unpack_bijective 0x8182 sampleHeader {}
    (by decide) (by decide) (by decide) (by decide)

/-- C6 (evaluation of the code at the failing inputs): after a compression
pointer `readString` goes on reading at the post-pointer offset. With the name
"a" at offset 12 and the pointer `0xC0 0x0C` at offset 15 followed by the label
"b", the name read at 15 is "a.b", not "a"; with the pointer in the last two
bytes of the buffer, the read at 15 panics. -/
theorem readString_continues_after_pointer (k : Nat) :
    readString (3 + k) pointerThenLabelBuffer 20 12 = .ret ([97], 15, none) ∧
    readString (5 + k) pointerThenLabelBuffer 20 15 = .ret ([97, 46, 98], 20, none) ∧
    readString (4 + k) pointerAtEndBuffer 17 12 = .ret ([97], 15, none) ∧
    readString (4 + k) pointerAtEndBuffer 17 15 = .goPanic := by
  refine ⟨?_, ?_, ?_, ?_⟩
  · exact readStringLoop_mono _ _ 3 k _ _ _ rfl (by simp)
  · exact readStringLoop_mono _ _ 5 k _ _ _ rfl (by simp)
  · exact readStringLoop_mono _ _ 4 k _ _ _ rfl (by simp)
  · exact readStringLoop_mono _ _ 4 k _ _ _ rfl (by simp)

/-- C8: `validateMessage` is the decision table of the specification, and it
never panics (its reads of `Questions[0]` are always in range). -/
theorem validateMessage_eq_table (m : DnsMessage) :
    validateMessage m = .ret (validateTable m) := by
  unfold validateMessage validateTable
  by_cases hr : m.Header.isResponse = true
  · simp [hr]
  · simp only [hr, if_false]
    by_cases h0 : m.Header.OpCode = 0
    · simp only [h0, DnsMessageOpCodeStandard, if_true]
      by_cases hq : m.Header.QDCOUNT = 0 ∨ m.Header.QDCOUNT ≠ m.Questions.length
      · simp [hq]
      · rw [if_neg hq, if_neg hq]
        by_cases h1 : m.Header.QDCOUNT ≠ 1
        · simp [h1]
        · rw [if_neg h1, if_neg h1]
          have h1' : m.Header.QDCOUNT = 1 := by simpa using h1
          have hlen : m.Questions.length = 1 := by
            have := not_or.mp hq
            simp at this
            omega
          obtain ⟨q, hqs⟩ := List.length_eq_one.mp hlen
          simp only [h1', hqs, validateQuestions, QClass_IN, QType_A, QType_TXT]
          simp
          by_cases hc : q.QClass = 1
          · by_cases ht : q.QType = 1 ∨ q.QType = 16
            · rcases ht with ht | ht <;> simp [hc, ht]
            · have ht' := not_or.mp ht
              simp [hc, ht'.1, ht'.2]
          · simp [hc]
    · by_cases h1 : m.Header.OpCode = 1
      · simp [h1, DnsMessageOpCodeStandard, DnsMessageOpCodeInverse]
      · by_cases h2 : m.Header.OpCode = 2
        · simp [h2, DnsMessageOpCodeStandard, DnsMessageOpCodeInverse, DnsMessageOpCodeStatus]
        · simp only [DnsMessageOpCodeStandard, DnsMessageOpCodeInverse, DnsMessageOpCodeStatus,
            h0, h1, h2, if_false]
          split <;> simp_all

/-- C9: for every query buffer in plain wire layout with any transaction ID,
response flag clear and opcode STANDARD (first flag byte below 8), any other
flag bits, QDCOUNT 1, ARCOUNT 0 and the single question (google.com, A, IN),
whatever bytes follow, `HandleMessage` returns the 54 bytes made of: the header
with the query's transaction ID, flag word 0x8000 (response flag set, response
code OK = 0), QDCOUNT 1 and ANCOUNT 1; the echoed question; and one answer
record with name google.com, type A, class IN, TTL 0, rdlength 4 and rdata
216, 239, 36, 21 (the big-endian bytes of 3639550997). -/
theorem handleMessage_answers_google_A (t1 t2 f1 f2 a1 a2 n1 n2 : Nat) (ext : List Nat)
    (fuel length : Nat) (ht1 : t1 < 256) (ht2 : t2 < 256) (hf1 : f1 < 8) (hf2 : f2 < 256)
    (hfuel : 2 < fuel) (hlen : 28 ≤ length) :
    HandleMessage fuel
        ([t1, t2, f1, f2, 0, 1, a1, a2, n1, n2, 0, 0] ++ (googleComWire ++ 0 :: 1 :: 0 :: 1 :: ext))
        length =
      .ret ([t1, t2, 128, 0, 0, 1, 0, 1, 0, 0, 0, 0]
              ++ (googleComWire ++ [0, 1, 0, 1])
              ++ (googleComWire ++ [0, 1, 0, 1, 0, 0, 0, 0, 0, 4, 216, 239, 36, 21]),
            54, none) := by
  have hp := parse_one_question t1 t2 f1 f2 a1 a2 n1 n2
    [[103, 111, 111, 103, 108, 101], [99, 111, 109]] 0 1 0 1 ext fuel length
    (by decide) (by simpa using hfuel) (by simpa [writeParts] using hlen)
  have hb : writeParts [] [[103, 111, 111, 103, 108, 101], [99, 111, 109]]
      ++ 0 :: 0 :: 1 :: 0 :: 1 :: ext = googleComWire ++ 0 :: 1 :: 0 :: 1 :: ext := by
    simp [writeParts, googleComWire]
  rw [hb] at hp
  obtain ⟨u1, u2, -⟩ := unpackFlags_fields
    { TransactionID := t1 * 256 + t2, QDCOUNT := 1, ANCOUNT := a1 * 256 + a2,
      NSCOUNT := n1 * 256 + n2, ARCOUNT := 0 } (f1 * 256 + f2)
  have h := handleMessage_of_decoded_google fuel _ length _ hp
    (by rw [u1]; simp; omega) (by rw [u2]; omega) rfl rfl
  rw [h]
  have hid : (t1 * 256 + t2) / 256 % 256 = t1 ∧ (t1 * 256 + t2) % 256 = t2 := by omega
  simp only [responseHeaderBytes, unpackFlags, hid.1, hid.2]

theorem handleMessage_answers_google_A_witness :
    HandleMessage 3 googleQuery 28 =
      .ret ([0x12, 0x34, 128, 0, 0, 1, 0, 1, 0, 0, 0, 0]
              ++ (googleComWire ++ [0, 1, 0, 1])
              ++ (googleComWire ++ [0, 1, 0, 1, 0, 0, 0, 0, 0, 4, 216, 239, 36, 21]),
            54, none) :=
  handleMessage_answers_google_A 0x12 0x34 0x01 0x00 0 0 0 0 [] 3 28
    (by decide) (by decide) (by decide) (by decide) (by decide) (by decide)

/-- C10 (evaluation of the code): for every input whose decoding yields a
standard query with response flag clear and exactly one question, of class IN
and of type A or TXT, whose name misses the zone table of that type, the
response of `HandleMessage` is the header with QDCOUNT 1 and ANCOUNT 0
followed by the echoed question and no answer record; its response code is
SERVER_FAILURE = 2 when the whole query decoded, and FORMAT_ERROR = 1 when
decoding failed after the question, which is what happens to a well-formed
query that carries an additional record whose owner name is a compression
pointer. -/
theorem handleMessage_lookup_miss_outcome (fuel : Nat) (buf : List Nat) (length : Nat)
    (m : DnsMessage) (e : Option DnsError) (q : DnsMessageQuestionSectionEntry)
    (hparse : ParseMessageFromBuffer fuel buf length = .ret (m, e))
    (hresp : m.Header.isResponse = false) (hop : m.Header.OpCode = 0)
    (hqd : m.Header.QDCOUNT = 1) (hq : m.Questions = [q]) (hclass : q.QClass = 1)
    (hmiss : (q.QType = 1 ∧ (fetchAResourceByName q.QName).2.1 = false) ∨
             (q.QType = 16 ∧ (fetchTxtResourceByName q.QName).2.1 = false)) :
    HandleMessage fuel buf length =
      .ret (responseHeaderBytes m.Header.TransactionID (if e.isSome then 1 else 2) 0
              ++ questionWire q,
            (responseHeaderBytes m.Header.TransactionID (if e.isSome then 1 else 2) 0
              ++ questionWire q).length,
            none) := by
  cases e with
  | some err =>
    rw [handleMessage_of_decode_error fuel buf length m err hparse,
      write_response_no_answer _ 1 (by decide) _, hq]
    rfl
  | none =>
    obtain ⟨hv, hp⟩ := miss_question m q hresp hop hqd hq hclass hmiss
    rw [handleMessage_of_miss fuel buf length m q hparse hv (by rw [hq]; rfl) hp,
      write_response_no_answer _ 2 (by decide) _, hq]
    rfl

theorem handleMessage_lookup_miss_outcome_witness :
    (ParseMessageFromBuffer 5 missQueryPointerAdditional 45 =
        .ret ({ Header := { TransactionID := 0x1234, QDCOUNT := 1, ARCOUNT := 1 },
                Questions := [exampleQuestion] }, some .MessageParsingFailed) ∧
      HandleMessage 5 missQueryPointerAdditional 45 =
        .ret ([0x12, 0x34, 128, 1, 0, 1, 0, 0, 0, 0, 0, 0] ++ (exampleComWire ++ [0, 1, 0, 1]),
              29, none)) ∧
    (ParseMessageFromBuffer 3 missQueryPlainAdditional 56 =
        .ret ({ Header := { TransactionID := 0x1234, QDCOUNT := 1, ARCOUNT := 1 },
                Questions := [exampleQuestion],
                Additional := [{ Name := exampleCom, RrType := 1, Class := 1, TTL := 0,
                                 RdLength := 4, RdData := [1, 2, 3, 4] }] }, none) ∧
      HandleMessage 3 missQueryPlainAdditional 56 =
        .ret ([0x12, 0x34, 128, 2, 0, 1, 0, 0, 0, 0, 0, 0] ++ (exampleComWire ++ [0, 1, 0, 1]),
              29, none)) :=
  ⟨⟨rfl, handleMessage_lookup_miss_outcome 5 missQueryPointerAdditional 45
      { Header := { TransactionID := 0x1234, QDCOUNT := 1, ARCOUNT := 1 },
        Questions := [exampleQuestion] } (some .MessageParsingFailed) exampleQuestion
      rfl rfl rfl rfl rfl rfl (Or.inl ⟨rfl, rfl⟩)⟩,
   ⟨rfl, handleMessage_lookup_miss_outcome 3 missQueryPlainAdditional 56
      { Header := { TransactionID := 0x1234, QDCOUNT := 1, ARCOUNT := 1 },
        Questions := [exampleQuestion],
        Additional := [{ Name := exampleCom, RrType := 1, Class := 1, TTL := 0,
                         RdLength := 4, RdData := [1, 2, 3, 4] }] } none exampleQuestion
      rfl rfl rfl rfl rfl rfl (Or.inl ⟨rfl, rfl⟩)⟩⟩

/-- C11 (evaluation of the code): after a decode failure `HandleMessage` hands
the `FORMAT_ERROR` response with `QDCOUNT` 1 over the questions decoded so far
to `WriteMessageToBuffer`. When no question was decoded, which is so for every
`MessageTooShort` failure and for a failure inside the first question, writing
it panics at `Questions[0]`; only when a question had been decoded before the
failure does the `FORMAT_ERROR` response with answer count 0 come back. -/
theorem handleMessage_on_decode_failure (fuel : Nat) (buf : List Nat) (length : Nat)
    (m : DnsMessage) (e : DnsError)
    (hparse : ParseMessageFromBuffer fuel buf length = .ret (m, some e)) :
    HandleMessage fuel buf length =
      match m.Questions with
      | [] => .goPanic
      | q :: _ =>
        .ret (responseHeaderBytes m.Header.TransactionID 1 0 ++ questionWire q,
              (responseHeaderBytes m.Header.TransactionID 1 0 ++ questionWire q).length,
              none) := by
  rw [handleMessage_of_decode_error fuel buf length m e hparse]
  exact write_response_no_answer _ 1 (by decide) _

theorem handleMessage_on_decode_failure_witness :
    (ParseMessageFromBuffer 3 [] 0 = .ret ({}, some .MessageTooShort) ∧
      HandleMessage 3 [] 0 = .goPanic) ∧
    (ParseMessageFromBuffer 3 truncatedLabelBuffer 13 =
        .ret ({ Header := { TransactionID := 0x1234, QDCOUNT := 1 } },
              some .MessageParsingFailed) ∧
      HandleMessage 3 truncatedLabelBuffer 13 = .goPanic) ∧
    (ParseMessageFromBuffer 3 secondQuestionMissing 29 =
        .ret ({ Header := { TransactionID := 0x1234, QDCOUNT := 2 },
                Questions := [googleQuestion] }, some .MessageParsingFailed) ∧
      HandleMessage 3 secondQuestionMissing 29 =
        .ret ([0x12, 0x34, 128, 1, 0, 1, 0, 0, 0, 0, 0, 0] ++ (googleComWire ++ [0, 1, 0, 1]),
              28, none)) :=
  ⟨⟨rfl, handleMessage_on_decode_failure 3 [] 0 {} .MessageTooShort rfl⟩,
   ⟨rfl, handleMessage_on_decode_failure 3 truncatedLabelBuffer 13
      { Header := { TransactionID := 0x1234, QDCOUNT := 1 } } .MessageParsingFailed rfl⟩,
   ⟨rfl, handleMessage_on_decode_failure 3 secondQuestionMissing 29
      { Header := { TransactionID := 0x1234, QDCOUNT := 2 }, Questions := [googleQuestion] }
      .MessageParsingFailed rfl⟩⟩

/-- C12 (evaluation of the code): for a decoded query with the response flag
set `HandleMessage` hands the `FORMAT_ERROR` response with `QDCOUNT` 1 over the
decoded questions to `WriteMessageToBuffer`. With at least one question the
response has response code 1, answer count 0 and the first question; with
question count 0 writing it panics at `Questions[0]`. -/
theorem handleMessage_on_response_flag (fuel : Nat) (buf : List Nat) (length : Nat)
    (m : DnsMessage) (hparse : ParseMessageFromBuffer fuel buf length = .ret (m, none))
    (hresp : m.Header.isResponse = true) :
    HandleMessage fuel buf length =
      match m.Questions with
      | [] => .goPanic
      | q :: _ =>
        .ret (responseHeaderBytes m.Header.TransactionID 1 0 ++ questionWire q,
              (responseHeaderBytes m.Header.TransactionID 1 0 ++ questionWire q).length,
              none) := by
  have hv : validateMessage m = .ret (some .NotValidMessage) := by
    simp [validateMessage, hresp]
  rw [handleMessage_of_invalid fuel buf length m _ hparse hv]
  exact write_response_no_answer _ 1 (by decide) _

theorem handleMessage_on_response_flag_witness :
    (ParseMessageFromBuffer 3 responseFlagNoQuestion 12 =
        .ret ({ Header := { TransactionID := 0x1234, isResponse := true } }, none) ∧
      HandleMessage 3 responseFlagNoQuestion 12 = .goPanic) ∧
    (ParseMessageFromBuffer 3 responseFlagQuery 28 =
        .ret ({ Header := { TransactionID := 0x1234, isResponse := true, QDCOUNT := 1 },
                Questions := [googleQuestion] }, none) ∧
      HandleMessage 3 responseFlagQuery 28 =
        .ret ([0x12, 0x34, 128, 1, 0, 1, 0, 0, 0, 0, 0, 0] ++ (googleComWire ++ [0, 1, 0, 1]),
              28, none)) :=
  ⟨⟨rfl, handleMessage_on_response_flag 3 responseFlagNoQuestion 12
      { Header := { TransactionID := 0x1234, isResponse := true } } rfl rfl⟩,
   ⟨rfl, handleMessage_on_response_flag 3 responseFlagQuery 28
      { Header := { TransactionID := 0x1234, isResponse := true, QDCOUNT := 1 },
        Questions := [googleQuestion] } rfl rfl⟩⟩

/-- C13: for every query that decodes with response flag clear, opcode STANDARD
and exactly two questions (QDCOUNT 2), `validateMessage` returns
`ValidButNotImplemented` and `HandleMessage` returns the header with response
code FORMAT_ERROR = 1 and answer count 0 followed by the first question and
nothing else: no answer record, whatever the questions are. That response code
is the one of every validation failure: whenever `validateMessage` returns an
error, the response written is the one with response code 1 and no answer. -/
theorem handleMessage_two_questions (fuel : Nat) (buf : List Nat) (length : Nat)
    (m : DnsMessage) (q1 q2 : DnsMessageQuestionSectionEntry)
    (hparse : ParseMessageFromBuffer fuel buf length = .ret (m, none))
    (hresp : m.Header.isResponse = false) (hop : m.Header.OpCode = 0)
    (hqd : m.Header.QDCOUNT = 2) (hq : m.Questions = [q1, q2]) :
    validateMessage m = .ret (some .ValidButNotImplemented) ∧
    HandleMessage fuel buf length =
      .ret (responseHeaderBytes m.Header.TransactionID 1 0 ++ questionWire q1,
            (responseHeaderBytes m.Header.TransactionID 1 0 ++ questionWire q1).length,
            none) ∧
    ∀ (fuel2 : Nat) (buf2 : List Nat) (length2 : Nat) (m2 : DnsMessage) (e2 : DnsError),
      ParseMessageFromBuffer fuel2 buf2 length2 = .ret (m2, none) →
      validateMessage m2 = .ret (some e2) →
      HandleMessage fuel2 buf2 length2 =
        WriteMessageToBuffer (responseFor m2.Header.TransactionID 1 0 m2.Questions []) := by
  have hv : validateMessage m = .ret (some .ValidButNotImplemented) := by
    simp [validateMessage, hresp, hop, hqd, hq, DnsMessageOpCodeStandard]
  refine ⟨hv, ?_, fun fuel2 buf2 length2 m2 e2 h1 h2 =>
    handleMessage_of_invalid fuel2 buf2 length2 m2 e2 h1 h2⟩
  rw [handleMessage_of_invalid fuel buf length m _ hparse hv,
    write_response_no_answer _ 1 (by decide) _, hq]

theorem handleMessage_two_questions_witness :
    ParseMessageFromBuffer 3 twoQuestionQuery 45 = .ret (twoQuestionMessage, none) ∧
    validateMessage twoQuestionMessage = .ret (some .ValidButNotImplemented) ∧
    HandleMessage 3 twoQuestionQuery 45 =
      .ret ([0x12, 0x34, 128, 1, 0, 1, 0, 0, 0, 0, 0, 0] ++ (googleComWire ++ [0, 1, 0, 1]),
            28, none) :=
  ⟨rfl,
   (handleMessage_two_questions 3 twoQuestionQuery 45 twoQuestionMessage googleQuestion
      { QName := exampleCom, QType := 1, QClass := 1 } rfl rfl rfl rfl rfl).1,
   (handleMessage_two_questions 3 twoQuestionQuery 45 twoQuestionMessage googleQuestion
      { QName := exampleCom, QType := 1, QClass := 1 } rfl rfl rfl rfl rfl).2.1⟩

/-- C14: for every input of at least 12 bytes on which `HandleMessage` returns
a response, the response starts with the first two bytes of the query (the
transaction ID), then the flag bytes `128, rc` with `rc` one of 0, 1, 2, then
QDCOUNT 1, ANCOUNT 0 or 1, and NSCOUNT and ARCOUNT 0; the flag word unpacks to
response flag set, opcode STANDARD = 0, and authoritative-answer, truncation,
recursion-desired, recursion-available and reserved all zero, whatever the
flags of the query and whatever the outcome. -/
theorem response_header_fixed (fuel : Nat) (buf : List Nat) (length : Nat)
    (out : List Nat) (n : Nat) (e : Option DnsError)
    (hbytes : ∀ b ∈ buf, b < 256) (hlen : 12 ≤ length)
    (h : HandleMessage fuel buf length = .ret (out, n, e)) :
    ∃ (rc an : Nat) (rest : List Nat),
      out = buf.take 2 ++ [128, rc, 0, 1, 0, an, 0, 0, 0, 0] ++ rest ∧ rc ≤ 2 ∧ an ≤ 1 ∧
      (unpackFlags {} (128 * 256 + rc)).isResponse = true ∧
      (unpackFlags {} (128 * 256 + rc)).OpCode = 0 ∧
      (unpackFlags {} (128 * 256 + rc)).AuthoritativeAnswer = false ∧
      (unpackFlags {} (128 * 256 + rc)).TrunCation = false ∧
      (unpackFlags {} (128 * 256 + rc)).RecursionDesired = false ∧
      (unpackFlags {} (128 * 256 + rc)).RecursionAvailable = false ∧
      (unpackFlags {} (128 * 256 + rc)).Reserved = 0 ∧
      (unpackFlags {} (128 * 256 + rc)).ResponseCode = rc := by
  obtain ⟨m, pe, rc, an, ans, hp, hrc, han, hw⟩ := handleMessage_shape fuel buf length _ h
  obtain ⟨rest, hrest⟩ := write_starts_with_header _ _ hw
  obtain ⟨tid, fl, qd, an', ns, ar, h0, -, -, -, -, -, hh, -⟩ :=
    parse_decompose fuel buf length m pe hp hlen
  obtain ⟨hl, htid⟩ := sliceUint16_ret buf 0 tid h0
  have hmt : m.Header.TransactionID = tid := by rw [hh]; rfl
  have hb0 : buf.getD 0 0 < 256 := by
    rw [List.getD_eq_getElem buf 0 (by omega)]
    exact hbytes _ (List.getElem_mem _)
  have hb1 : buf.getD (0 + 1) 0 < 256 := by
    rw [List.getD_eq_getElem buf 0 (by omega)]
    exact hbytes _ (List.getElem_mem _)
  have htake : buf.take 2 = [buf.getD 0 0, buf.getD (0 + 1) 0] := by
    match buf, hl with
    | a :: b :: t, _ => rfl
  have hflags : packFlags (responseFor m.Header.TransactionID rc an m.Questions ans).Header
      = 32768 + rc := packFlags_response _ rc an (by omega) _ _
  refine ⟨rc, an, rest, ?_, hrc, han, ?_⟩
  · simp only at hrest
    rw [hrest, hflags, htake, hmt, htid]
    generalize buf.getD 0 0 = x at hb0 ⊢
    generalize buf.getD (0 + 1) 0 = y at hb1 ⊢
    have e1 : (x * 256 + y) / 256 % 256 = x := by omega
    have e2 : (x * 256 + y) % 256 = y := by omega
    have e3 : (32768 + rc) / 256 % 256 = 128 := by omega
    have e4 : (32768 + rc) % 256 = rc := by omega
    have e5 : an / 256 % 256 = 0 ∧ an % 256 = an := by omega
    simp [responseFor, e1, e2, e3, e4, e5]
  · obtain ⟨u1, u2, u3, u4, u5, u6, u7, u8⟩ := unpackFlags_fields {} (128 * 256 + rc)
    rw [u1, u2, u3, u4, u5, u6, u7, u8]
    interval_cases rc <;> simp

theorem response_header_fixed_witness :
    ∃ (rc an : Nat) (rest : List Nat),
      [0x12, 0x34, 128, 0, 0, 1, 0, 1, 0, 0, 0, 0]
          ++ (googleComWire ++ [0, 1, 0, 1])
          ++ (googleComWire ++ [0, 1, 0, 1, 0, 0, 0, 0, 0, 4, 216, 239, 36, 21])
        = googleQuery.take 2 ++ [128, rc, 0, 1, 0, an, 0, 0, 0, 0] ++ rest ∧ rc ≤ 2 ∧ an ≤ 1 ∧
      (unpackFlags {} (128 * 256 + rc)).isResponse = true ∧
      (unpackFlags {} (128 * 256 + rc)).OpCode = 0 ∧
      (unpackFlags {} (128 * 256 + rc)).AuthoritativeAnswer = false ∧
      (unpackFlags {} (128 * 256 + rc)).TrunCation = false ∧
      (unpackFlags {} (128 * 256 + rc)).RecursionDesired = false ∧
      (unpackFlags {} (128 * 256 + rc)).RecursionAvailable = false ∧
      (unpackFlags {} (128 * 256 + rc)).Reserved = 0 ∧
      (unpackFlags {} (128 * 256 + rc)).ResponseCode = rc :=
  response_header_fixed 3 googleQuery 28 _ 54 none (by decide) (by decide) rfl

/-- C15 (evaluation of the code at the failing input): the query with the two
questions (google.com, A, IN) and (example.com, A, IN) decodes to a message
with two questions, and the response of `HandleMessage` has QDCOUNT 1 and
holds the first question only. -/
theorem handleMessage_echoes_first_question_only :
    (∃ m : DnsMessage, ParseMessageFromBuffer 3 twoQuestionQuery 45 = .ret (m, none) ∧
      m.Header.QDCOUNT = 2 ∧ m.Questions.length = 2) ∧
    HandleMessage 3 twoQuestionQuery 45 =
      .ret ([0x12, 0x34, 128, 1, 0, 1, 0, 0, 0, 0, 0, 0] ++ (googleComWire ++ [0, 1, 0, 1]),
            28, none) :=
  ⟨⟨twoQuestionMessage, rfl, rfl, rfl⟩, rfl⟩

/-- C16 (evaluation of the code at the failing inputs): a query with opcode
INVERSE passes `validateMessage` and is then resolved like a standard query.
For (google.com, A, IN) the response has response code OK, answer count 1 and
the A record; for a question of unsupported type and class the response has
answer count 1 and a record with no data; with no question the handler panics
at `Questions[0]`. -/
theorem handleMessage_answers_inverse (fuel : Nat) :
    (∃ m : DnsMessage,
      ParseMessageFromBuffer (fuel + 3) inverseGoogleQuery 28 = .ret (m, none) ∧
      m.Header.isResponse = false ∧ m.Header.OpCode = 1 ∧ validateMessage m = .ret none) ∧
    HandleMessage (fuel + 3) inverseGoogleQuery 28 =
      .ret ([0x12, 0x34, 128, 0, 0, 1, 0, 1, 0, 0, 0, 0]
              ++ (googleComWire ++ [0, 1, 0, 1])
              ++ (googleComWire ++ [0, 1, 0, 1, 0, 0, 0, 0, 0, 4, 216, 239, 36, 21]),
            54, none) ∧
    HandleMessage (fuel + 3) inverseUnsupportedQuery 28 =
      .ret ([0x12, 0x34, 128, 0, 0, 1, 0, 1, 0, 0, 0, 0]
              ++ (googleComWire ++ [0, 28, 0, 3])
              ++ (googleComWire ++ [0, 28, 0, 3, 0, 0, 0, 0, 0, 0]),
            50, none) ∧
    HandleMessage fuel inverseNoQuestion 12 = .goPanic :=
  ⟨⟨_, rfl, rfl, rfl, rfl⟩, rfl, rfl, rfl⟩

/-- C17: for every question `q`, when `prepareResourceEntryForEntry q` reports
found, the record has name, type and class of `q` and TTL 0; for an A question
`RdLength` is 4 and `RdData` is the 4 big-endian bytes of the address the zone
lookup returns; for a TXT question with looked-up text `s`, `RdLength` is
`len(s) + 1` and `RdData` is the byte `len(s)` followed by the bytes of `s`; in
both cases `RdLength` is the length of `RdData`. When the lookup of an A or TXT
question misses, found is false. -/
theorem prepare_record_synthesis (q : DnsMessageQuestionSectionEntry) :
    ((prepareResourceEntryForEntry q).2.1 = true →
      (prepareResourceEntryForEntry q).1.Name = q.QName ∧
      (prepareResourceEntryForEntry q).1.RrType = q.QType ∧
      (prepareResourceEntryForEntry q).1.Class = q.QClass ∧
      (prepareResourceEntryForEntry q).1.TTL = 0) ∧
    ((prepareResourceEntryForEntry q).2.1 = true → q.QType = QType_A →
      (prepareResourceEntryForEntry q).1.RdLength = 4 ∧
      (prepareResourceEntryForEntry q).1.RdData =
        [(fetchAResourceByName q.QName).1 / 16777216 % 256,
         (fetchAResourceByName q.QName).1 / 65536 % 256,
         (fetchAResourceByName q.QName).1 / 256 % 256,
         (fetchAResourceByName q.QName).1 % 256] ∧
      (prepareResourceEntryForEntry q).1.RdLength =
        (prepareResourceEntryForEntry q).1.RdData.length) ∧
    ((prepareResourceEntryForEntry q).2.1 = true → q.QType = QType_TXT →
      (prepareResourceEntryForEntry q).1.RdLength =
        (fetchTxtResourceByName q.QName).1.length + 1 ∧
      (prepareResourceEntryForEntry q).1.RdData =
        (fetchTxtResourceByName q.QName).1.length :: (fetchTxtResourceByName q.QName).1 ∧
      (prepareResourceEntryForEntry q).1.RdLength =
        (prepareResourceEntryForEntry q).1.RdData.length) ∧
    (q.QType = QType_A → (fetchAResourceByName q.QName).2.1 = false →
      (prepareResourceEntryForEntry q).2.1 = false) ∧
    (q.QType = QType_TXT → (fetchTxtResourceByName q.QName).2.1 = false →
      (prepareResourceEntryForEntry q).2.1 = false) := by
  by_cases ht : q.QType = 16
  · by_cases hn : q.QName = googleCom
    · simp [prepareResourceEntryForEntry, prepareResourceEntryA, fetchTxtResourceByName,
        QType_TXT, QType_A, ht, hn, itWorks]
    · simp [prepareResourceEntryForEntry, prepareResourceEntryA, fetchTxtResourceByName,
        QType_TXT, QType_A, ht, hn]
  · by_cases ha : q.QType = 1
    · by_cases hn : q.QName = googleCom
      · simp [prepareResourceEntryForEntry, prepareResourceEntryA, fetchAResourceByName,
          QType_TXT, QType_A, ha, hn, appendUint32]
      · by_cases hw : q.QName = wwwGoogleCom
        · simp [prepareResourceEntryForEntry, prepareResourceEntryA, fetchAResourceByName,
            QType_TXT, QType_A, ha, hn, hw, appendUint32]
        · simp [prepareResourceEntryForEntry, prepareResourceEntryA, fetchAResourceByName,
            QType_TXT, QType_A, ha, hn, hw]
    · simp [prepareResourceEntryForEntry, prepareResourceEntryA, QType_TXT, QType_A, ht, ha]

theorem prepare_record_synthesis_witness :
    (prepareResourceEntryForEntry googleQuestion).2.1 = true ∧
    (prepareResourceEntryForEntry googleQuestion).1.RdLength = 4 ∧
    (prepareResourceEntryForEntry googleQuestion).1.RdData = [216, 239, 36, 21] :=
  ⟨rfl, ((prepare_record_synthesis googleQuestion).2.1 rfl rfl).1,
    ((prepare_record_synthesis googleQuestion).2.1 rfl rfl).2.1⟩

/-- C18 (evaluation of the code at the failing input): in a query whose second
name is the pointer `0xC0 0x0C` at offset 19, followed by type A and class IN,
`readString` started at 19 reads the pointed-to name "a" and then goes on at
offset 21, takes the high byte of the type as the terminator and returns offset
22, not 21; the type is then read as 256 and the class read runs past the
length, so the query fails to decode. -/
theorem readString_offset_after_pointer (fuel : Nat) :
    readString (fuel + 3) compressedQuery 25 12 = .ret ([97], 15, none) ∧
    readString (fuel + 4) compressedQuery 25 19 = .ret ([97], 22, none) ∧
    readUint16 compressedQuery 25 22 = .ret (256, 24, none) ∧
    ParseMessageFromBuffer (fuel + 4) compressedQuery 25 =
      .ret ({ Header := { TransactionID := 0x1234, QDCOUNT := 2 },
              Questions := [{ QName := [97], QType := 1, QClass := 1 }] },
            some .MessageParsingFailed) :=
  ⟨rfl, rfl, rfl, rfl⟩

/-- C19: for every input on which `ParseMessageFromBuffer` succeeds, the decoded
message has exactly `QDCOUNT` questions and exactly `ARCOUNT` additional
records, its answer and authority sections are empty whatever `ANCOUNT` and
`NSCOUNT` say, and every decoded additional record has `RdLength` equal to the
length of its `RdData`. -/
theorem parse_section_counts (fuel : Nat) (buf : List Nat) (length : Nat) (m : DnsMessage)
    (h : ParseMessageFromBuffer fuel buf length = .ret (m, none)) :
    m.Questions.length = m.Header.QDCOUNT ∧
    m.Additional.length = m.Header.ARCOUNT ∧
    m.Answers = [] ∧ m.Authority = [] ∧
    ∀ x ∈ m.Additional, x.RdLength = x.RdData.length := by
  have hlen : 12 ≤ length := by
    by_contra hc
    have hs : length < 12 := by omega
    simp [ParseMessageFromBuffer, hs] at h
  obtain ⟨tid, fl, qd, an, ns, ar, -, -, -, -, -, -, hh, hs⟩ :=
    parse_decompose fuel buf length m none h hlen
  obtain ⟨s1, s2, s3⟩ := hs rfl
  obtain ⟨e1, e2⟩ := parse_answers_empty fuel buf length m none h
  refine ⟨?_, ?_, e1, e2, s3⟩
  · rw [s1, hh]; rfl
  · rw [s2, hh]; rfl

theorem parse_section_counts_witness :
    ParseMessageFromBuffer 3 queryWithAdditional 41 = .ret (messageWithAdditional, none) ∧
    messageWithAdditional.Questions.length = messageWithAdditional.Header.QDCOUNT ∧
    messageWithAdditional.Additional.length = messageWithAdditional.Header.ARCOUNT ∧
    messageWithAdditional.Answers = [] ∧ messageWithAdditional.Authority = [] ∧
    ∀ x ∈ messageWithAdditional.Additional, x.RdLength = x.RdData.length :=
  ⟨rfl, parse_section_counts 3 queryWithAdditional 41 messageWithAdditional rfl⟩

/-- C20: for every byte prefix `pre` and every name that is the dot-join of one
or more labels, each non-empty, free of '.', and at most 63 bytes long,
`writeStringToBuffer pre name` is `pre` followed by each label as its length
byte and its bytes and a final 0 byte (no compression pointer is written), and
`readString` on that buffer with `length` its size and offset `len(pre)` returns
the name, no error, and the offset just past the terminating 0 byte. -/
theorem name_write_read_roundtrip (pre : List Nat) (labels : List (List Nat)) (fuel : Nat)
    (hne : labels ≠ [])
    (hwf : ∀ l ∈ labels, l ≠ [] ∧ 46 ∉ l ∧ l.length ≤ 63)
    (hfuel : labels.length < fuel) :
    writeStringToBuffer pre (stringsJoin labels) = pre ++ labelsWire labels ++ [0] ∧
    readString fuel (writeStringToBuffer pre (stringsJoin labels))
        (writeStringToBuffer pre (stringsJoin labels)).length pre.length
      = .ret (stringsJoin labels, (writeStringToBuffer pre (stringsJoin labels)).length,
              none) := by
  have hsplit : stringsSplit (stringsJoin labels) = labels :=
    stringsSplit_stringsJoin labels hne (fun l hl => (hwf l hl).2.1)
  have hwire : writeParts [] labels = labelsWire labels :=
    writeParts_eq_labelsWire labels (fun l hl => (hwf l hl).2.2)
  have hw : writeStringToBuffer pre (stringsJoin labels) = pre ++ labelsWire labels ++ [0] := by
    rw [writeStringToBuffer, hsplit, writeParts_append, hwire]
  refine ⟨hw, ?_⟩
  have hread := readStringLoop_labels [] (pre ++ labelsWire labels ++ [0]).length labels [] pre
    fuel (fun l hl => ⟨(hwf l hl).1, (hwf l hl).2.2⟩) (by rw [hwire]; simp) hfuel
  rw [hwire] at hread
  rw [hw, readString]
  simp only [List.append_assoc, List.nil_append] at hread ⊢
  rw [hread]
  simp
  omega

theorem name_write_read_roundtrip_witness :
    writeStringToBuffer [9, 9] (stringsJoin [[103, 111], [100, 101, 118]])
      = [9, 9] ++ labelsWire [[103, 111], [100, 101, 118]] ++ [0] ∧
    readString 3 (writeStringToBuffer [9, 9] (stringsJoin [[103, 111], [100, 101, 118]]))
        (writeStringToBuffer [9, 9] (stringsJoin [[103, 111], [100, 101, 118]])).length
        ([9, 9] : List Nat).length
      = .ret (stringsJoin [[103, 111], [100, 101, 118]],
              (writeStringToBuffer [9, 9]
                (stringsJoin [[103, 111], [100, 101, 118]])).length, none) :=
  name_write_read_roundtrip [9, 9] [[103, 111], [100, 101, 118]] 3 (by decide) (by decide)
    (by decide)

end GoDns
